import Mathlib

/-!
Verification development for the 2D cloth simulator (`src/main.rs`).

The simulator's scalars are `f32`; here they are modelled by `ℚ` (exact
arithmetic), and the floating-point square root is modelled by an abstract
function parameter `sq : ℚ → ℚ` that is threaded to every call site of
`.length()` / `.distance()` / `.sqrt()`.  All structural claims proved below
hold for every choice of `sq`.
-/

namespace ClothSim

/-- 2D vector, mirroring macroquad's `Vec2` as used by the simulator. -/
structure Vec2 where
  x : ℚ
  y : ℚ
deriving DecidableEq

instance : Add Vec2 := ⟨fun a b => ⟨a.x + b.x, a.y + b.y⟩⟩

instance : Sub Vec2 := ⟨fun a b => ⟨a.x - b.x, a.y - b.y⟩⟩

/-- `Vec2::ZERO`. -/
def Vec2.zero : Vec2 := ⟨0, 0⟩

/-- `v * c` (vector times scalar, componentwise). -/
def Vec2.smul (v : Vec2) (c : ℚ) : Vec2 := ⟨v.x * c, v.y * c⟩

/-- `v / c` (vector divided by scalar, componentwise). -/
def Vec2.div (v : Vec2) (c : ℚ) : Vec2 := ⟨v.x / c, v.y / c⟩

/-- `Vec2::dot`. -/
def Vec2.dot (a b : Vec2) : ℚ := a.x * b.x + a.y * b.y

/-- `Vec2::length_squared`. -/
def Vec2.lengthSq (v : Vec2) : ℚ := v.x * v.x + v.y * v.y

/-- `a.distance(b) = (a - b).length()`, with the square root abstracted by `sq`. -/
def Vec2.dist (sq : ℚ → ℚ) (a b : Vec2) : ℚ := sq ((a - b).lengthSq)

/-- The `Particle` struct.  The `acceleration` field is the force accumulator
(forces are divided by the mass as they are applied). -/
structure Particle where
  pos : Vec2
  old_pos : Vec2
  acceleration : Vec2
  mass : ℚ
  is_pinned : Bool
deriving DecidableEq

/-- `Particle::new`. -/
def Particle.new (x y : ℚ) : Particle :=
  { pos := ⟨x, y⟩, old_pos := ⟨x, y⟩, acceleration := Vec2.zero,
    mass := 1, is_pinned := false }

/-- `Particle::update` (Verlet integration step). -/
def Particle.update (p : Particle) (dt : ℚ) : Particle :=
  if p.is_pinned then p
  else
    let velocity := p.pos - p.old_pos
    { p with old_pos := p.pos,
             pos := p.pos + (velocity + p.acceleration.smul (dt * dt)),
             acceleration := Vec2.zero }

/-- `Particle::apply_force`. -/
def Particle.apply_force (p : Particle) (force : Vec2) : Particle :=
  { p with acceleration := p.acceleration + force.div p.mass }

/-- The `Spring` struct (distance constraint between two particle indices). -/
structure Spring where
  p1_idx : Nat
  p2_idx : Nat
  rest_length : ℚ
deriving DecidableEq

/-- The `Cloth` struct. -/
structure Cloth where
  particles : List Particle
  springs : List Spring
  width : Nat
  height : Nat
deriving DecidableEq

/-- The particle grid built by `Cloth::new`: row-major, row 0 pinned. -/
def clothParticles (width height : Nat) (spacing start_x start_y : ℚ) : List Particle :=
  (List.range height).flatMap fun y =>
    (List.range width).map fun x =>
      let p := Particle.new (start_x + (x : ℚ) * spacing) (start_y + (y : ℚ) * spacing)
      if y == 0 then { p with is_pinned := true } else p

/-- The springs emitted by `Cloth::new` for the cell at column `x`, row `y`. -/
def cellSprings (width height : Nat) (spacing : ℚ) (sq : ℚ → ℚ) (x y : Nat) : List Spring :=
  let current_idx := y * width + x
  (if x < width - 1 then
      ⟨current_idx, current_idx + 1, spacing⟩ ::
        (if x < width - 2 then [⟨current_idx, current_idx + 2, spacing * 2⟩] else [])
    else []) ++
  (if y < height - 1 then
      ⟨current_idx, current_idx + width, spacing⟩ ::
        (if y < height - 2 then [⟨current_idx, current_idx + 2 * width, spacing * 2⟩] else [])
    else []) ++
  (if x < width - 1 ∧ y < height - 1 then
      let diagonal_len := sq (spacing ^ 2 + spacing ^ 2)
      [⟨current_idx, current_idx + width + 1, diagonal_len⟩,
       ⟨y * width + (x + 1), (y + 1) * width + x, diagonal_len⟩]
    else [])

/-- The full constraint list built by `Cloth::new`. -/
def clothSprings (width height : Nat) (spacing : ℚ) (sq : ℚ → ℚ) : List Spring :=
  (List.range height).flatMap fun y =>
    (List.range width).flatMap fun x => cellSprings width height spacing sq x y

/-- `Cloth::new`. -/
def Cloth.new (sq : ℚ → ℚ) (width height : Nat) (spacing start_x start_y : ℚ) : Cloth :=
  { particles := clothParticles width height spacing start_x start_y,
    springs := clothSprings width height spacing sq,
    width := width, height := height }

/-- Out-of-range reads return this default (the Rust code would panic; the
invariant proved for `Cloth::new` shows indices are always in range). -/
def dfltParticle : Particle := Particle.new 0 0

/-- Current endpoint distance of a spring, as computed by the tear pass:
`p1.pos.distance(p2.pos)`. -/
def Spring.dist (sq : ℚ → ℚ) (ps : List Particle) (s : Spring) : ℚ :=
  Vec2.dist sq (ps.getD s.p1_idx dfltParticle).pos (ps.getD s.p2_idx dfltParticle).pos

/-- The tear pass of one solver iteration:
`springs.retain(|s| dist < s.rest_length * tear_threshold)`. -/
def tearPass (sq : ℚ → ℚ) (tear_threshold : ℚ) (ps : List Particle)
    (springs : List Spring) : List Spring :=
  springs.filter fun s => decide (Spring.dist sq ps s < s.rest_length * tear_threshold)

/-- One constraint correction (the body of the `for spring in &self.springs`
loop).  The two writes are sequential, re-reading the store in between,
exactly as the raw-pointer code behaves. -/
def corrStep (sq : ℚ → ℚ) (stiffness : ℚ) (ps : List Particle) (s : Spring) : List Particle :=
  let p1 := ps.getD s.p1_idx dfltParticle
  let p2 := ps.getD s.p2_idx dfltParticle
  let delta := p2.pos - p1.pos
  let dist := sq delta.lengthSq
  if dist = 0 then ps
  else
    let diff := (dist - s.rest_length) / dist
    let correction := ((delta.smul (1/2)).smul diff).smul stiffness
    let ps1 := if p1.is_pinned then ps
               else ps.set s.p1_idx { p1 with pos := p1.pos + correction }
    let p2n := ps1.getD s.p2_idx dfltParticle
    if p2n.is_pinned then ps1
    else ps1.set s.p2_idx { p2n with pos := p2n.pos - correction }

/-- One solver iteration: tear pass, then sequential (Gauss-Seidel)
correction pass over the surviving springs. -/
def Cloth.iterateOnce (sq : ℚ → ℚ) (stiffness tear_threshold : ℚ) (c : Cloth) : Cloth :=
  let springs := tearPass sq tear_threshold c.particles c.springs
  { c with springs := springs,
           particles := springs.foldl (corrStep sq stiffness) c.particles }

/-- The `for _ in 0..iterations` solver loop. -/
def Cloth.relax (sq : ℚ → ℚ) (stiffness tear_threshold : ℚ) : Nat → Cloth → Cloth
  | 0, c => c
  | n + 1, c => Cloth.relax sq stiffness tear_threshold n (c.iterateOnce sq stiffness tear_threshold)

/-- `Cloth::update`: apply gravity to every particle, integrate every
particle, then run the solver iterations. -/
def Cloth.update (sq : ℚ → ℚ) (c : Cloth) (dt : ℚ) (iterations : Nat) (gravity : Vec2)
    (stiffness tear_threshold : ℚ) : Cloth :=
  let ps := c.particles.map fun p => p.apply_force gravity
  let ps := ps.map fun p => p.update dt
  Cloth.relax sq stiffness tear_threshold iterations { c with particles := ps }

/-- Rust's `f32::clamp(v, lo, hi)`. -/
def clampf (v lo hi : ℚ) : ℚ := if v < lo then lo else if v > hi then hi else v

/-- `distance_point_to_segment`. -/
def distance_point_to_segment (sq : ℚ → ℚ) (p a b : Vec2) : ℚ :=
  let ab := b - a
  let ap := p - a
  let len_sq := ab.lengthSq
  if len_sq = 0 then Vec2.dist sq p a
  else
    let t := clampf (ap.dot ab / len_sq) 0 1
    let closest_point := a + ab.smul t
    Vec2.dist sq p closest_point

/-- The cut pass run while the right mouse button is down:
`springs.retain(|s| dist_to_spring > cut_radius)`. -/
def cutSprings (sq : ℚ → ℚ) (mouse_pos : Vec2) (cut_radius : ℚ) (c : Cloth) : List Spring :=
  c.springs.filter fun s =>
    decide (distance_point_to_segment sq mouse_pos
      (c.particles.getD s.p1_idx dfltParticle).pos
      (c.particles.getD s.p2_idx dfltParticle).pos > cut_radius)

/-- `cloth_spacing` constant from `main`. -/
def cloth_spacing : ℚ := 15

/-- x of `cloth_start_pos` from `main`. -/
def cloth_start_x : ℚ := 300

/-- y of `cloth_start_pos` from `main`. -/
def cloth_start_y : ℚ := 50

/-- `f32::MAX` (exactly `(2^24 - 1) * 2^104`). -/
def f32_max : ℚ := (2 ^ 24 - 1) * 2 ^ 104

/-- Rust's `as usize` cast from a nonnegative float: truncation (saturating
at 0 for negative values). -/
def toUsize (q : ℚ) : Nat := q.floor.toNat

/-- Per-frame inputs read by the body of `main`'s loop: UI slider values,
UI button/pointer state, and the raw frame time. -/
structure FrameInput where
  reset_pressed : Bool
  cloth_width : ℚ
  cloth_height : ℚ
  cut_radius : ℚ
  gravity_y : ℚ
  stiffness : ℚ
  tear_threshold : ℚ
  iterations : ℚ
  mouse_pos : Vec2
  left_pressed : Bool
  left_down : Bool
  left_released : Bool
  right_down : Bool
  over_ui : Bool
  frame_time : ℚ
deriving DecidableEq

/-- The mutable state carried across frames by `main`'s loop. -/
structure SimState where
  cloth : Cloth
  selected_particle_idx : Option Nat
  last_width : ℚ
  last_height : ℚ
deriving DecidableEq

/-- The "Reset Cloth" button handler inside the UI window. -/
def resetPass (sq : ℚ → ℚ) (inp : FrameInput) (st : SimState) : SimState :=
  if inp.reset_pressed then
    { st with
      cloth := Cloth.new sq (toUsize inp.cloth_width) (toUsize inp.cloth_height)
        cloth_spacing cloth_start_x cloth_start_y,
      selected_particle_idx := none }
  else st

/-- The rebuild-on-resize check (`(last_width - cloth_width).abs() > 0.1 || ...`). -/
def rebuildPass (sq : ℚ → ℚ) (inp : FrameInput) (st : SimState) : SimState :=
  if |st.last_width - inp.cloth_width| > 1/10 ∨ |st.last_height - inp.cloth_height| > 1/10 then
    { cloth := Cloth.new sq (toUsize inp.cloth_width) (toUsize inp.cloth_height)
        cloth_spacing cloth_start_x cloth_start_y,
      selected_particle_idx := none,
      last_width := inp.cloth_width, last_height := inp.cloth_height }
  else st

/-- Particle picking on left-press (closest particle, threshold 400 = 20²). -/
def selectPass (inp : FrameInput) (st : SimState) : SimState :=
  if inp.left_pressed then
    if !inp.over_ui then
      let r := st.cloth.particles.enum.foldl
        (fun acc ip =>
          let dist_sq := (ip.2.pos - inp.mouse_pos).lengthSq
          if dist_sq < acc.1 then (dist_sq, ip.1) else acc)
        (f32_max, 0)
      if r.1 < 400 then { st with selected_particle_idx := some r.2 } else st
    else st
  else st

/-- Interactive drag while the left button is held. -/
def dragPass (inp : FrameInput) (st : SimState) : SimState :=
  if inp.left_down then
    match st.selected_particle_idx with
    | some idx =>
      if idx < st.cloth.particles.length then
        let p := st.cloth.particles.getD idx dfltParticle
        let original_pos := p.pos
        { st with cloth := { st.cloth with
            particles := st.cloth.particles.set idx
              { p with pos := inp.mouse_pos, old_pos := original_pos } } }
      else { st with selected_particle_idx := none }
    | none => st
  else st

/-- Selection release on left-button release. -/
def releasePass (inp : FrameInput) (st : SimState) : SimState :=
  if inp.left_released then { st with selected_particle_idx := none } else st

/-- The cut pass while the right button is held. -/
def cutFramePass (sq : ℚ → ℚ) (inp : FrameInput) (st : SimState) : SimState :=
  if inp.right_down then
    { st with cloth := { st.cloth with
        springs := cutSprings sq inp.mouse_pos inp.cut_radius st.cloth } }
  else st

/-- The `cloth.update(...)` call, with `dt = frame_time.min(1/30)`. -/
def physicsPass (sq : ℚ → ℚ) (inp : FrameInput) (st : SimState) : SimState :=
  let dt := min inp.frame_time (1/30)
  let c := Cloth.update sq st.cloth dt (toUsize inp.iterations) ⟨0, inp.gravity_y⟩
    inp.stiffness inp.tear_threshold
  { st with cloth := c }

/-- One iteration of `main`'s loop, in source order: UI (reset button),
rebuild check, selection, drag, release, cut, physics update. -/
def mainFrame (sq : ℚ → ℚ) (inp : FrameInput) (st : SimState) : SimState :=
  physicsPass sq inp (cutFramePass sq inp (releasePass inp (dragPass inp
    (selectPass inp (rebuildPass sq inp (resetPass sq inp st))))))

/-- Modelled from the spec: the frame order claimed by the specification
("force application → integration → tear/relax iterations → cut →
interaction"), i.e. the physics update first, then the cut pass, then the
interaction (selection/drag/release) passes.  This definition follows the
spec's words, for comparison with `mainFrame` (the source's order). -/
def specOrderFrame (sq : ℚ → ℚ) (inp : FrameInput) (st : SimState) : SimState :=
  releasePass inp (dragPass inp (selectPass inp (cutFramePass sq inp
    (physicsPass sq inp (rebuildPass sq inp (resetPass sq inp st))))))

/-- All fields of a particle except `pos` (used to state frame-invariance
of the correction pass, which only rewrites positions). -/
def nonPosFields (p : Particle) : Vec2 × Vec2 × ℚ × Bool :=
  (p.old_pos, p.acceleration, p.mass, p.is_pinned)

/-- A two-particle cloth used as concrete witness input: particle 0 pinned,
particle 1 free, one spring between them. -/
def wCloth : Cloth :=
  { particles :=
      [{ pos := ⟨1, 2⟩, old_pos := ⟨0, 0⟩, acceleration := ⟨0, 0⟩, mass := 1,
         is_pinned := true },
       Particle.new 3 0],
    springs := [⟨0, 1, 1⟩], width := 2, height := 1 }

/-- A one-particle cloth whose particle is pinned (as in row 0 of any grid). -/
def c8Cloth : Cloth :=
  { particles :=
      [{ pos := ⟨0, 0⟩, old_pos := ⟨0, 0⟩, acceleration := ⟨0, 0⟩, mass := 1,
         is_pinned := true }],
    springs := [], width := 1, height := 1 }

/-- A two-particle cloth with one spring, for the cut-pass witness. -/
def cutCloth : Cloth :=
  { particles := [Particle.new 0 0, Particle.new 2 0],
    springs := [⟨0, 1, 2⟩], width := 2, height := 1 }

/-- Frame input for the C5 witness: a cut with the right button held. -/
def c5Inp : FrameInput :=
  { reset_pressed := false, cloth_width := 1, cloth_height := 1, cut_radius := 1,
    gravity_y := 0, stiffness := 1, tear_threshold := 2, iterations := 0,
    mouse_pos := ⟨0, 0⟩, left_pressed := false, left_down := false,
    left_released := false, right_down := true, over_ui := false, frame_time := 0 }

/-- State for the C5 witness. -/
def c5St : SimState :=
  { cloth := { particles := [Particle.new 0 0, Particle.new 2 0],
               springs := [⟨0, 1, 2⟩], width := 2, height := 1 },
    selected_particle_idx := none, last_width := 1, last_height := 1 }

/-- Frame input used to separate the source's pass order from the spec's
claimed order: drag active on particle 0, everything else inert. -/
def c9Inp : FrameInput :=
  { reset_pressed := false, cloth_width := 1, cloth_height := 1, cut_radius := 1,
    gravity_y := 0, stiffness := 1, tear_threshold := 2, iterations := 0,
    mouse_pos := ⟨5, 5⟩, left_pressed := false, left_down := true,
    left_released := false, right_down := false, over_ui := false, frame_time := 0 }

/-- State for the pass-order counterexample: one free particle at the
origin, already selected. -/
def c9St : SimState :=
  { cloth := { particles := [Particle.new 0 0], springs := [], width := 1, height := 1 },
    selected_particle_idx := some 0, last_width := 1, last_height := 1 }

/-- Origin labels (cell column, cell row, constraint kind) for the springs
emitted by `Cloth::new`; a proof device used to reason about the generated
list.  Kinds: 0 structural-horizontal, 1 bending-horizontal,
2 structural-vertical, 3 bending-vertical, 4 first shear, 5 second shear. -/
def cellKinds (w h x y : Nat) : List (Nat × Nat × Nat) :=
  (if x < w - 1 then
      (x, y, 0) :: (if x < w - 2 then [(x, y, 1)] else [])
    else []) ++
  (if y < h - 1 then
      (x, y, 2) :: (if y < h - 2 then [(x, y, 3)] else [])
    else []) ++
  (if x < w - 1 ∧ y < h - 1 then [(x, y, 4), (x, y, 5)] else [])

/-- The spring an origin label stands for (proof device). -/
def encodeK (w : Nat) (sp diag : ℚ) (o : Nat × Nat × Nat) : Spring :=
  match o with
  | (x, y, 0) => ⟨y * w + x, y * w + x + 1, sp⟩
  | (x, y, 1) => ⟨y * w + x, y * w + x + 2, sp * 2⟩
  | (x, y, 2) => ⟨y * w + x, y * w + x + w, sp⟩
  | (x, y, 3) => ⟨y * w + x, y * w + x + 2 * w, sp * 2⟩
  | (x, y, 4) => ⟨y * w + x, y * w + x + w + 1, diag⟩
  | (x, y, _) => ⟨y * w + (x + 1), (y + 1) * w + x, diag⟩

/-- All origin labels of a grid, in generation order (proof device). -/
def clothOrigins (w h : Nat) : List (Nat × Nat × Nat) :=
  (List.range h).flatMap fun y => (List.range w).flatMap fun x => cellKinds w h x y

/-- `cellSprings` with the guards evaluated in `Int` instead of `usize`
arithmetic: used to state that the `width - 1`-style subtractions in
`Cloth::new` never underflow on any reachable evaluation. -/
def cellSpringsZ (w h : Nat) (sp : ℚ) (sq : ℚ → ℚ) (x y : Nat) : List Spring :=
  let current_idx := y * w + x
  (if (x : Int) < (w : Int) - 1 then
      ⟨current_idx, current_idx + 1, sp⟩ ::
        (if (x : Int) < (w : Int) - 2 then [⟨current_idx, current_idx + 2, sp * 2⟩] else [])
    else []) ++
  (if (y : Int) < (h : Int) - 1 then
      ⟨current_idx, current_idx + w, sp⟩ ::
        (if (y : Int) < (h : Int) - 2 then [⟨current_idx, current_idx + 2 * w, sp * 2⟩] else [])
    else []) ++
  (if (x : Int) < (w : Int) - 1 ∧ (y : Int) < (h : Int) - 1 then
      let diagonal_len := sq (sp ^ 2 + sp ^ 2)
      [⟨current_idx, current_idx + w + 1, diagonal_len⟩,
       ⟨y * w + (x + 1), (y + 1) * w + x, diagonal_len⟩]
    else [])

/-- `clothSprings` built from `cellSpringsZ` (proof device for the
no-underflow statement). -/
def clothSpringsZ (w h : Nat) (sp : ℚ) (sq : ℚ → ℚ) : List Spring :=
  (List.range h).flatMap fun y =>
    (List.range w).flatMap fun x => cellSpringsZ w h sp sq x y

/-- Decoder from a spring's endpoint pair back to its origin label, valid
for `w ≥ 2` (proof device; left inverse of `encodeK` on generated
origins, which yields that no particle pair carries two constraints). -/
def decKey (w : Nat) (p : Nat × Nat) : Nat × Nat × Nat :=
  let a := p.1
  let k := p.2 - p.1
  if k = 1 then
    if w = 2 ∧ a % w = 1 then (a % w - 1, a / w, 5) else (a % w, a / w, 0)
  else if k = 2 then
    if w = 2 then (a % w, a / w, 2)
    else if w = 3 ∧ a % w ≠ 0 then (a % w - 1, a / w, 5)
    else (a % w, a / w, 1)
  else if k = w then (a % w, a / w, 2)
  else if k = 2 * w then (a % w, a / w, 3)
  else if k = w + 1 then (a % w, a / w, 4)
  else (a % w - 1, a / w, 5)

/-! ### Basic Vec2 algebra -/

theorem Vec2.add_def (a b : Vec2) : a + b = ⟨a.x + b.x, a.y + b.y⟩ := rfl

theorem Vec2.sub_def (a b : Vec2) : a - b = ⟨a.x - b.x, a.y - b.y⟩ := rfl

theorem Vec2.add_assoc' (a b c : Vec2) : a + b + c = a + (b + c) := by
  cases a; cases b; cases c; simp [Vec2.add_def]; constructor <;> ring

theorem Vec2.zero_add' (a : Vec2) : Vec2.zero + a = a := by
  cases a; simp [Vec2.add_def, Vec2.zero]

theorem Vec2.add_zero' (a : Vec2) : a + Vec2.zero = a := by
  cases a; simp [Vec2.add_def, Vec2.zero]

theorem Vec2.div_add_div_same' (a b : Vec2) (m : ℚ) :
    a.div m + b.div m = (a + b).div m := by
  cases a; cases b; simp [Vec2.add_def, Vec2.div]; constructor <;> ring

/-- Folding `+` from an arbitrary accumulator. -/
theorem vec2_foldl_add (l : List Vec2) : ∀ a : Vec2,
    l.foldl (· + ·) a = a + l.foldl (· + ·) Vec2.zero := by
  induction l with
  | nil => intro a; simp [Vec2.add_zero']
  | cons f t ih =>
    intro a
    simp only [List.foldl_cons]
    rw [ih (a + f), ih (Vec2.zero + f), Vec2.zero_add', Vec2.add_assoc']

/-! ### getD / set helper lemmas for the particle store -/

theorem getD_set_particle (l : List Particle) (j i : Nat) (a : Particle) :
    (l.set j a).getD i dfltParticle =
      if j = i ∧ j < l.length then a else l.getD i dfltParticle := by
  rcases Nat.lt_or_ge j l.length with hj | hj
  · by_cases hij : j = i
    · subst hij
      simp [List.getD_eq_getElem?_getD, List.getElem?_set_self hj, hj]
    · simp [List.getD_eq_getElem?_getD, List.getElem?_set_ne hij, hij]
  · rw [List.set_eq_of_length_le hj]
    have : ¬ (j = i ∧ j < l.length) := by omega
    simp [this]

theorem setPos_nonPosFields (l : List Particle) (j : Nat) (v : Vec2) (i : Nat) :
    nonPosFields ((l.set j { l.getD j dfltParticle with pos := v }).getD i dfltParticle)
      = nonPosFields (l.getD i dfltParticle) := by
  rw [getD_set_particle]
  split
  · rename_i h
    rw [h.1]
    rfl
  · rfl

theorem setPos_pos_of_ne (l : List Particle) (j : Nat) (v : Vec2) (i : Nat) (h : j ≠ i) :
    ((l.set j { l.getD j dfltParticle with pos := v }).getD i dfltParticle).pos
      = (l.getD i dfltParticle).pos := by
  rw [getD_set_particle]
  split
  · rename_i h2
    exact absurd h2.1 h
  · rfl

/-- `corrStep` never changes any particle's `old_pos`, `acceleration`,
`mass` or `is_pinned`; it only ever rewrites `pos`. -/
theorem corrStep_nonPosFields (sq : ℚ → ℚ) (st : ℚ) (ps : List Particle) (s : Spring) (i : Nat) :
    nonPosFields ((corrStep sq st ps s).getD i dfltParticle)
      = nonPosFields (ps.getD i dfltParticle) := by
  simp only [corrStep]
  split
  · rfl
  · split
    · split
      · rfl
      · exact setPos_nonPosFields ..
    · split
      · exact setPos_nonPosFields ..
      · rw [setPos_nonPosFields]
        exact setPos_nonPosFields ..

theorem nonPosFields_pinned {p q : Particle} (h : nonPosFields p = nonPosFields q) :
    p.is_pinned = q.is_pinned := congrArg (fun t => t.2.2.2) h

theorem nonPosFields_acc {p q : Particle} (h : nonPosFields p = nonPosFields q) :
    p.acceleration = q.acceleration := congrArg (fun t => t.2.1) h

theorem setPos_pinned (l : List Particle) (j : Nat) (v : Vec2) (i : Nat) :
    ((l.set j { l.getD j dfltParticle with pos := v }).getD i dfltParticle).is_pinned
      = (l.getD i dfltParticle).is_pinned :=
  nonPosFields_pinned (setPos_nonPosFields l j v i)

/-- A correction step never moves a pinned particle. -/
theorem corrStep_pinned_pos (sq : ℚ → ℚ) (st : ℚ) (ps : List Particle) (s : Spring) (i : Nat)
    (h : (ps.getD i dfltParticle).is_pinned = true) :
    ((corrStep sq st ps s).getD i dfltParticle).pos = (ps.getD i dfltParticle).pos := by
  simp only [corrStep]
  split
  · rfl
  · split
    · split
      · rfl
      · rename_i hp2
        refine setPos_pos_of_ne _ _ _ _ (fun he => ?_)
        rw [he] at hp2
        exact hp2 h
    · rename_i hp1
      split
      · refine setPos_pos_of_ne _ _ _ _ (fun he => ?_)
        rw [he] at hp1
        exact hp1 h
      · rename_i hp2
        refine (setPos_pos_of_ne _ _ _ _ (fun he => ?_)).trans
          (setPos_pos_of_ne _ _ _ _ (fun he2 => ?_))
        · rw [he] at hp2
          rw [setPos_pinned _ _ _ i, h] at hp2
          exact hp2 rfl
        · rw [he2] at hp1
          exact hp1 h

theorem foldl_corrStep_nonPosFields (sq : ℚ → ℚ) (st : ℚ) (springs : List Spring) :
    ∀ (ps : List Particle) (i : Nat),
      nonPosFields ((springs.foldl (corrStep sq st) ps).getD i dfltParticle)
        = nonPosFields (ps.getD i dfltParticle) := by
  induction springs with
  | nil => intro ps i; rfl
  | cons a t ih =>
    intro ps i
    rw [List.foldl_cons, ih, corrStep_nonPosFields]

/-- A whole correction pass never moves a pinned particle. -/
theorem foldl_corrStep_pinned_pos (sq : ℚ → ℚ) (st : ℚ) (springs : List Spring) :
    ∀ (ps : List Particle) (i : Nat), (ps.getD i dfltParticle).is_pinned = true →
      ((springs.foldl (corrStep sq st) ps).getD i dfltParticle).pos
        = (ps.getD i dfltParticle).pos := by
  induction springs with
  | nil => intro ps i _; rfl
  | cons a t ih =>
    intro ps i h
    have h' : ((corrStep sq st ps a).getD i dfltParticle).is_pinned = true := by
      rw [nonPosFields_pinned (corrStep_nonPosFields sq st ps a i)]
      exact h
    rw [List.foldl_cons, ih _ _ h', corrStep_pinned_pos _ _ _ _ _ h]

theorem relax_nonPosFields (sq : ℚ → ℚ) (st tr : ℚ) :
    ∀ (n : Nat) (c : Cloth) (i : Nat),
      nonPosFields ((Cloth.relax sq st tr n c).particles.getD i dfltParticle)
        = nonPosFields (c.particles.getD i dfltParticle) := by
  intro n
  induction n with
  | zero => intro c i; rfl
  | succ m ih =>
    intro c i
    simp only [Cloth.relax]
    rw [ih]
    simp only [Cloth.iterateOnce]
    exact foldl_corrStep_nonPosFields ..

theorem relax_pinned_pos (sq : ℚ → ℚ) (st tr : ℚ) :
    ∀ (n : Nat) (c : Cloth) (i : Nat), (c.particles.getD i dfltParticle).is_pinned = true →
      ((Cloth.relax sq st tr n c).particles.getD i dfltParticle).pos
        = (c.particles.getD i dfltParticle).pos := by
  intro n
  induction n with
  | zero => intro c i _; rfl
  | succ m ih =>
    intro c i h
    have h' : (((c.iterateOnce sq st tr)).particles.getD i dfltParticle).is_pinned = true := by
      simp only [Cloth.iterateOnce]
      rw [nonPosFields_pinned (foldl_corrStep_nonPosFields ..)]
      exact h
    simp only [Cloth.relax]
    rw [ih _ _ h']
    simp only [Cloth.iterateOnce]
    exact foldl_corrStep_pinned_pos _ _ _ _ _ h

/-! ### The integration stage of `Cloth::update` -/

theorem getD_ge (ps : List Particle) (i : Nat) (hi : ps.length ≤ i) :
    ps.getD i dfltParticle = dfltParticle := by
  rw [List.getD_eq_getElem?_getD, List.getElem?_eq_none hi]
  rfl

theorem integ_getD_lt (g : Vec2) (dt : ℚ) (ps : List Particle) (i : Nat)
    (hi : i < ps.length) :
    ((ps.map fun p => p.apply_force g).map fun p => p.update dt).getD i dfltParticle
      = ((ps.getD i dfltParticle).apply_force g).update dt := by
  rw [List.getD_eq_getElem?_getD, List.getElem?_map, List.getElem?_map,
      List.getElem?_eq_getElem hi, List.getD_eq_getElem?_getD, List.getElem?_eq_getElem hi]
  rfl

theorem integ_getD_ge (g : Vec2) (dt : ℚ) (ps : List Particle) (i : Nat)
    (hi : ps.length ≤ i) :
    ((ps.map fun p => p.apply_force g).map fun p => p.update dt).getD i dfltParticle
      = dfltParticle := by
  rw [List.getD_eq_getElem?_getD, List.getElem?_map, List.getElem?_map,
      List.getElem?_eq_none hi]
  rfl

theorem Particle.update_of_pinned (p : Particle) (dt : ℚ) (h : p.is_pinned = true) :
    p.update dt = p := by
  simp [Particle.update, h]

theorem Particle.update_acc_zero (p : Particle) (dt : ℚ) (h : p.is_pinned = false) :
    (p.update dt).acceleration = Vec2.zero := by
  simp [Particle.update, h]

theorem Particle.apply_force_is_pinned (p : Particle) (f : Vec2) :
    (p.apply_force f).is_pinned = p.is_pinned := rfl

theorem Particle.apply_force_pos (p : Particle) (f : Vec2) :
    (p.apply_force f).pos = p.pos := rfl

theorem update_pinned_pos (sq : ℚ → ℚ) (c : Cloth) (dt : ℚ) (iters : Nat) (g : Vec2)
    (st tr : ℚ) (h : (c.particles.getD i dfltParticle).is_pinned = true) :
    ((Cloth.update sq c dt iters g st tr).particles.getD i dfltParticle).pos
      = (c.particles.getD i dfltParticle).pos := by
  rcases Nat.lt_or_ge i c.particles.length with hi | hi
  · simp only [Cloth.update]
    have hfp : ((c.particles.getD i dfltParticle).apply_force g).is_pinned = true := h
    have he : ((c.particles.map fun p => p.apply_force g).map fun p => p.update dt).getD i
        dfltParticle = (c.particles.getD i dfltParticle).apply_force g := by
      rw [integ_getD_lt _ _ _ _ hi, Particle.update_of_pinned _ _ hfp]
    rw [relax_pinned_pos _ _ _ _ _ _ (by rw [he]; exact hfp)]
    rw [he]
    rfl
  · rw [getD_ge _ _ hi] at h
    exact absurd h (by decide)

/-! ### Claim C1: the pin invariant -/

/-- C1: for every particle with `pinned = true`, the position after the
integration pass, after any (prefix of a) constraint-correction pass, and
after the whole `Cloth::update`, equals its position before: integration
and constraint correction never modify a pinned particle's position. -/
theorem pin_invariant (sq : ℚ → ℚ) (g : Vec2) (dt stiffness tear : ℚ) (iters : Nat)
    (ps : List Particle) (springs : List Spring) (c : Cloth) (i : Nat) :
    ((ps.getD i dfltParticle).is_pinned = true →
      ((((ps.map fun p => p.apply_force g).map fun p => p.update dt).getD i
          dfltParticle).pos = (ps.getD i dfltParticle).pos)
      ∧ ((springs.foldl (corrStep sq stiffness) ps).getD i dfltParticle).pos
          = (ps.getD i dfltParticle).pos)
    ∧ ((c.particles.getD i dfltParticle).is_pinned = true →
      ((Cloth.update sq c dt iters g stiffness tear).particles.getD i dfltParticle).pos
        = (c.particles.getD i dfltParticle).pos) := by
  refine ⟨fun h => ⟨?_, foldl_corrStep_pinned_pos _ _ _ _ _ h⟩,
    fun h => update_pinned_pos _ _ _ _ _ _ _ h⟩
  rcases Nat.lt_or_ge i ps.length with hi | hi
  · rw [integ_getD_lt _ _ _ _ hi,
      Particle.update_of_pinned _ _ (show ((ps.getD i dfltParticle).apply_force g).is_pinned
        = true from h)]
    rfl
  · rw [getD_ge _ _ hi] at h
    exact absurd h (by decide)

theorem pin_invariant_witness :
    ((wCloth.particles.getD 0 dfltParticle).is_pinned = true)
    ∧ ((Cloth.update (fun q => q) wCloth 1 3 ⟨0, 980⟩ (9/10) (9/2)).particles.getD 0
        dfltParticle).pos = (wCloth.particles.getD 0 dfltParticle).pos :=
  ⟨by decide,
    (pin_invariant (fun q => q) ⟨0, 980⟩ 1 (9/10) (9/2) 3 wCloth.particles
      wCloth.springs wCloth 0).2 (by decide)⟩

/-! ### Claim C3: the integration step on an unpinned particle -/

/-- Helper: folding `apply_force` accumulates the sum of the forces divided
by the (unchanged) mass into the `acceleration` field. -/
theorem foldl_apply_force (fs : List Vec2) :
    ∀ p : Particle,
      (fs.foldl (fun q f => q.apply_force f) p).acceleration
        = p.acceleration + (fs.foldl (· + ·) Vec2.zero).div p.mass
      ∧ (fs.foldl (fun q f => q.apply_force f) p).mass = p.mass := by
  induction fs with
  | nil =>
    intro p
    constructor
    · show p.acceleration = p.acceleration + Vec2.zero.div p.mass
      cases hp : p.acceleration
      simp [Vec2.add_def, Vec2.div, Vec2.zero]
    · rfl
  | cons f t ih =>
    intro p
    refine ⟨?_, ?_⟩
    · rw [List.foldl_cons, (ih (p.apply_force f)).1]
      show p.acceleration + f.div p.mass + (t.foldl (· + ·) Vec2.zero).div p.mass = _
      rw [Vec2.add_assoc', Vec2.div_add_div_same']
      rw [List.foldl_cons, vec2_foldl_add t (Vec2.zero + f), Vec2.zero_add']
    · rw [List.foldl_cons, (ih (p.apply_force f)).2]
      rfl

/-- C3: one integration step with time step `dt` on an unpinned particle:
the new `old_pos` is the old `pos`; the new `pos` is
`pos + (pos - old_pos) + acceleration * dt²` where the `acceleration` field
holds the accumulated force divided by the mass (last conjunct); and the
force accumulator is zero afterwards. -/
theorem integration_step_unpinned (p : Particle) (dt : ℚ) (fs : List Vec2)
    (h : p.is_pinned = false) :
    (p.update dt).old_pos = p.pos
    ∧ (p.update dt).pos = p.pos + (p.pos - p.old_pos) + p.acceleration.smul (dt ^ 2)
    ∧ (p.update dt).acceleration = Vec2.zero
    ∧ (fs.foldl (fun q f => q.apply_force f) p).acceleration
        = p.acceleration + (fs.foldl (· + ·) Vec2.zero).div p.mass := by
  refine ⟨?_, ?_, ?_, (foldl_apply_force fs p).1⟩
  · simp [Particle.update, h]
  · simp only [Particle.update, h]
    rw [if_neg (by simp)]
    show p.pos + ((p.pos - p.old_pos) + p.acceleration.smul (dt * dt)) = _
    cases p.pos
    cases p.old_pos
    cases p.acceleration
    simp [Vec2.add_def, Vec2.sub_def, Vec2.smul]
    constructor <;> ring
  · simp [Particle.update, h]

theorem integration_step_unpinned_witness :
    ((Particle.new 3 4).is_pinned = false)
    ∧ ((Particle.new 3 4).update 2).old_pos = (Particle.new 3 4).pos
    ∧ ((Particle.new 3 4).update 2).pos
        = (Particle.new 3 4).pos
          + ((Particle.new 3 4).pos - (Particle.new 3 4).old_pos)
          + (Particle.new 3 4).acceleration.smul (2 ^ 2)
    ∧ ((Particle.new 3 4).update 2).acceleration = Vec2.zero
    ∧ (([⟨0, 5⟩, ⟨1, 1⟩] : List Vec2).foldl (fun q f => q.apply_force f)
        (Particle.new 3 4)).acceleration
        = (Particle.new 3 4).acceleration
          + (([⟨0, 5⟩, ⟨1, 1⟩] : List Vec2).foldl (· + ·) Vec2.zero).div
              (Particle.new 3 4).mass := by
  have h := integration_step_unpinned (Particle.new 3 4) 2 [⟨0, 5⟩, ⟨1, 1⟩] (by decide)
  exact ⟨by decide, h.1, h.2.1, h.2.2.1, h.2.2.2⟩

/-! ### Claim C8: the force accumulator after the integration pass -/

/-- C8 counterexample: after a frame update (gravity (0,980), no solver
iterations, so the frame ends right after the integration pass), the pinned
particle's force accumulator is NOT zero: `Particle::update` returns early
for pinned particles before the `acceleration = Vec2::ZERO` reset. -/
theorem accumulator_not_reset_for_pinned :
    ((Cloth.update (fun q => q) c8Cloth 1 0 ⟨0, 980⟩ (9/10) (9/2)).particles.getD 0
      dfltParticle).acceleration ≠ Vec2.zero := by
  norm_num [Cloth.update, Cloth.relax, c8Cloth, Particle.apply_force, Particle.update,
    Vec2.div, Vec2.add_def, Vec2.zero, Vec2.mk.injEq]

/-- C8 amended: after each frame's integration pass (and thus after the whole
`Cloth::update`, whose solver passes never touch the accumulator), every
UNPINNED particle's force accumulator is zero; a pinned particle's
accumulator is instead left un-reset and retains the gravity applied that
frame (`acceleration + gravity / mass`). -/
theorem accumulator_after_integration (sq : ℚ → ℚ) (c : Cloth) (dt stiffness tear : ℚ)
    (iters : Nat) (g : Vec2) (i : Nat) :
    ((c.particles.getD i dfltParticle).is_pinned = false →
      ((Cloth.update sq c dt iters g stiffness tear).particles.getD i dfltParticle).acceleration
        = Vec2.zero)
    ∧ ((c.particles.getD i dfltParticle).is_pinned = true →
      ((Cloth.update sq c dt iters g stiffness tear).particles.getD i dfltParticle).acceleration
        = (c.particles.getD i dfltParticle).acceleration
            + g.div (c.particles.getD i dfltParticle).mass) := by
  have hacc : ((Cloth.update sq c dt iters g stiffness tear).particles.getD i
      dfltParticle).acceleration
      = (((c.particles.map fun p => p.apply_force g).map fun p => p.update dt).getD i
          dfltParticle).acceleration := by
    simp only [Cloth.update]
    exact nonPosFields_acc (relax_nonPosFields ..)
  constructor
  · intro h
    rw [hacc]
    rcases Nat.lt_or_ge i c.particles.length with hi | hi
    · rw [integ_getD_lt _ _ _ _ hi]
      have hfp : ((c.particles.getD i dfltParticle).apply_force g).is_pinned = false := h
      exact Particle.update_acc_zero _ _ hfp
    · rw [integ_getD_ge _ _ _ _ hi]
      rfl
  · intro h
    rw [hacc]
    rcases Nat.lt_or_ge i c.particles.length with hi | hi
    · rw [integ_getD_lt _ _ _ _ hi]
      have hfp : ((c.particles.getD i dfltParticle).apply_force g).is_pinned = true := h
      rw [Particle.update_of_pinned _ _ hfp]
      rfl
    · rw [getD_ge _ _ hi] at h
      exact absurd h (by decide)

theorem accumulator_after_integration_witness :
    ((wCloth.particles.getD 1 dfltParticle).is_pinned = false)
    ∧ ((Cloth.update (fun q => q) wCloth 1 2 ⟨0, 980⟩ (9/10) (9/2)).particles.getD 1
        dfltParticle).acceleration = Vec2.zero :=
  ⟨by decide,
    (accumulator_after_integration (fun q => q) wCloth 1 (9/10) (9/2) 2 ⟨0, 980⟩ 1).1
      (by decide)⟩

/-! ### Claim C4: the tear pass -/

/-- C4: in every solver iteration, exactly the constraints whose current
endpoint distance is below `rest_length * tear_threshold` survive the tear
pass (so those with distance `>= rest_length * tear_threshold` are removed,
using the pre-correction positions), the correction pass of the same
iteration folds only over the surviving constraints, and the surviving list
is a subsequence of the previous one. -/
theorem tear_pass_exact (sq : ℚ → ℚ) (st tr : ℚ) (c : Cloth) :
    (∀ s : Spring, s ∈ (c.iterateOnce sq st tr).springs ↔
      (s ∈ c.springs ∧ Spring.dist sq c.particles s < s.rest_length * tr))
    ∧ (c.iterateOnce sq st tr).particles
        = ((c.iterateOnce sq st tr).springs).foldl (corrStep sq st) c.particles
    ∧ ((c.iterateOnce sq st tr).springs).Sublist c.springs := by
  refine ⟨fun s => ?_, rfl, ?_⟩
  · simp [Cloth.iterateOnce, tearPass, List.mem_filter]
  · simp only [Cloth.iterateOnce, tearPass]
    exact List.filter_sublist _

/-! ### Claim C6: the correction pass formula -/

theorem corrStep_pos_p1 (sq : ℚ → ℚ) (st : ℚ) (ps : List Particle) (s : Spring)
    (hd : sq (((ps.getD s.p2_idx dfltParticle).pos -
        (ps.getD s.p1_idx dfltParticle).pos).lengthSq) ≠ 0)
    (hne : s.p1_idx ≠ s.p2_idx) (h1 : s.p1_idx < ps.length) :
    ((corrStep sq st ps s).getD s.p1_idx dfltParticle).pos
      = if (ps.getD s.p1_idx dfltParticle).is_pinned = true
        then (ps.getD s.p1_idx dfltParticle).pos
        else (ps.getD s.p1_idx dfltParticle).pos +
          ((((ps.getD s.p2_idx dfltParticle).pos -
              (ps.getD s.p1_idx dfltParticle).pos).smul (1/2)).smul
            ((sq (((ps.getD s.p2_idx dfltParticle).pos -
                  (ps.getD s.p1_idx dfltParticle).pos).lengthSq) - s.rest_length) /
              sq (((ps.getD s.p2_idx dfltParticle).pos -
                  (ps.getD s.p1_idx dfltParticle).pos).lengthSq))).smul st := by
  simp only [corrStep]
  rw [if_neg hd]
  by_cases hpin1 : (ps.getD s.p1_idx dfltParticle).is_pinned = true
  · rw [if_pos hpin1, if_pos hpin1]
    split
    · rfl
    · exact setPos_pos_of_ne _ _ _ _ (fun e => hne e.symm)
  · rw [if_neg hpin1, if_neg hpin1]
    split
    · rw [getD_set_particle, if_pos ⟨rfl, h1⟩]
    · rw [getD_set_particle, if_neg (fun hc => hne hc.1.symm), getD_set_particle,
        if_pos ⟨rfl, h1⟩]

theorem corrStep_pos_p2 (sq : ℚ → ℚ) (st : ℚ) (ps : List Particle) (s : Spring)
    (hd : sq (((ps.getD s.p2_idx dfltParticle).pos -
        (ps.getD s.p1_idx dfltParticle).pos).lengthSq) ≠ 0)
    (hne : s.p1_idx ≠ s.p2_idx) (h2 : s.p2_idx < ps.length) :
    ((corrStep sq st ps s).getD s.p2_idx dfltParticle).pos
      = if (ps.getD s.p2_idx dfltParticle).is_pinned = true
        then (ps.getD s.p2_idx dfltParticle).pos
        else (ps.getD s.p2_idx dfltParticle).pos -
          ((((ps.getD s.p2_idx dfltParticle).pos -
              (ps.getD s.p1_idx dfltParticle).pos).smul (1/2)).smul
            ((sq (((ps.getD s.p2_idx dfltParticle).pos -
                  (ps.getD s.p1_idx dfltParticle).pos).lengthSq) - s.rest_length) /
              sq (((ps.getD s.p2_idx dfltParticle).pos -
                  (ps.getD s.p1_idx dfltParticle).pos).lengthSq))).smul st := by
  simp only [corrStep]
  rw [if_neg hd]
  by_cases hpin1 : (ps.getD s.p1_idx dfltParticle).is_pinned = true
  · rw [if_pos hpin1]
    by_cases hpin2 : (ps.getD s.p2_idx dfltParticle).is_pinned = true
    · rw [if_pos hpin2, if_pos hpin2]
    · rw [if_neg hpin2, if_neg hpin2, getD_set_particle, if_pos ⟨rfl, h2⟩]
  · rw [if_neg hpin1]
    rw [getD_set_particle,
      if_neg (show ¬(s.p1_idx = s.p2_idx ∧ s.p1_idx < ps.length) from fun hc => hne hc.1)]
    by_cases hpin2 : (ps.getD s.p2_idx dfltParticle).is_pinned = true
    · rw [if_pos hpin2, if_pos hpin2]
      rw [getD_set_particle,
        if_neg (show ¬(s.p1_idx = s.p2_idx ∧ s.p1_idx < ps.length) from fun hc => hne hc.1)]
    · rw [if_neg hpin2, if_neg hpin2]
      rw [getD_set_particle, if_pos ⟨rfl, by simpa using h2⟩]

theorem corrStep_getD_other (sq : ℚ → ℚ) (st : ℚ) (ps : List Particle) (s : Spring)
    (j : Nat) (hj1 : j ≠ s.p1_idx) (hj2 : j ≠ s.p2_idx) :
    (corrStep sq st ps s).getD j dfltParticle = ps.getD j dfltParticle := by
  simp only [corrStep]
  split
  · rfl
  · split
    · split
      · rfl
      · rw [getD_set_particle, if_neg (fun hc => hj2 hc.1.symm)]
    · split
      · rw [getD_set_particle, if_neg (fun hc => hj1 hc.1.symm)]
      · rw [getD_set_particle, if_neg (fun hc => hj2 hc.1.symm),
          getD_set_particle, if_neg (fun hc => hj1 hc.1.symm)]

/-- C6: in the correction pass, a zero-distance constraint is skipped (the
particle store is untouched; nothing removes it from the spring list, whose
content is fixed by the tear pass); otherwise, with
`delta = pos(p2) - pos(p1)`, `diff = (dist - rest_length)/dist` and
`correction = delta * 0.5 * diff * stiffness`, the correction is added to
`p1.pos` unless `p1` is pinned and subtracted from `p2.pos` unless `p2` is
pinned, no other particle changes, and the pass folds sequentially
(Gauss-Seidel), so later constraints read already-corrected positions. -/
theorem correction_pass_spec (sq : ℚ → ℚ) (st : ℚ) (ps ps0 : List Particle) (s a : Spring)
    (l : List Spring) :
    (sq (((ps.getD s.p2_idx dfltParticle).pos -
        (ps.getD s.p1_idx dfltParticle).pos).lengthSq) = 0 →
      corrStep sq st ps s = ps)
    ∧ (sq (((ps.getD s.p2_idx dfltParticle).pos -
          (ps.getD s.p1_idx dfltParticle).pos).lengthSq) ≠ 0 →
        s.p1_idx ≠ s.p2_idx → s.p1_idx < ps.length → s.p2_idx < ps.length →
        (((corrStep sq st ps s).getD s.p1_idx dfltParticle).pos
            = if (ps.getD s.p1_idx dfltParticle).is_pinned = true
              then (ps.getD s.p1_idx dfltParticle).pos
              else (ps.getD s.p1_idx dfltParticle).pos +
                ((((ps.getD s.p2_idx dfltParticle).pos -
                    (ps.getD s.p1_idx dfltParticle).pos).smul (1/2)).smul
                  ((sq (((ps.getD s.p2_idx dfltParticle).pos -
                        (ps.getD s.p1_idx dfltParticle).pos).lengthSq) - s.rest_length) /
                    sq (((ps.getD s.p2_idx dfltParticle).pos -
                        (ps.getD s.p1_idx dfltParticle).pos).lengthSq))).smul st)
          ∧ (((corrStep sq st ps s).getD s.p2_idx dfltParticle).pos
            = if (ps.getD s.p2_idx dfltParticle).is_pinned = true
              then (ps.getD s.p2_idx dfltParticle).pos
              else (ps.getD s.p2_idx dfltParticle).pos -
                ((((ps.getD s.p2_idx dfltParticle).pos -
                    (ps.getD s.p1_idx dfltParticle).pos).smul (1/2)).smul
                  ((sq (((ps.getD s.p2_idx dfltParticle).pos -
                        (ps.getD s.p1_idx dfltParticle).pos).lengthSq) - s.rest_length) /
                    sq (((ps.getD s.p2_idx dfltParticle).pos -
                        (ps.getD s.p1_idx dfltParticle).pos).lengthSq))).smul st)
          ∧ ∀ j, j ≠ s.p1_idx → j ≠ s.p2_idx →
              (corrStep sq st ps s).getD j dfltParticle = ps.getD j dfltParticle)
    ∧ (a :: l).foldl (corrStep sq st) ps0 = l.foldl (corrStep sq st) (corrStep sq st ps0 a) := by
  refine ⟨fun hd => ?_, fun hd hne h1 h2 =>
    ⟨corrStep_pos_p1 sq st ps s hd hne h1, corrStep_pos_p2 sq st ps s hd hne h2,
     fun j hj1 hj2 => corrStep_getD_other sq st ps s j hj1 hj2⟩, rfl⟩
  simp only [corrStep]
  rw [if_pos hd]

theorem correction_pass_spec_witness :
    corrStep (fun q => q) 1 [Particle.new 0 0, Particle.new 3 0] ⟨0, 0, 1⟩
      = [Particle.new 0 0, Particle.new 3 0]
    ∧ (corrStep (fun q => q) 1 [Particle.new 0 0, Particle.new 3 0] ⟨0, 1, 1⟩).getD 5
        dfltParticle
      = ([Particle.new 0 0, Particle.new 3 0] : List Particle).getD 5 dfltParticle := by
  have hd0 : (fun q : ℚ => q)
      (((([Particle.new 0 0, Particle.new 3 0] : List Particle).getD
          (⟨0, 0, 1⟩ : Spring).p2_idx dfltParticle).pos -
        (([Particle.new 0 0, Particle.new 3 0] : List Particle).getD
          (⟨0, 0, 1⟩ : Spring).p1_idx dfltParticle).pos).lengthSq) = 0 := by
    norm_num [Particle.new, Vec2.sub_def, Vec2.lengthSq]
  have hd1 : (fun q : ℚ => q)
      (((([Particle.new 0 0, Particle.new 3 0] : List Particle).getD
          (⟨0, 1, 1⟩ : Spring).p2_idx dfltParticle).pos -
        (([Particle.new 0 0, Particle.new 3 0] : List Particle).getD
          (⟨0, 1, 1⟩ : Spring).p1_idx dfltParticle).pos).lengthSq) ≠ 0 := by
    norm_num [Particle.new, Vec2.sub_def, Vec2.lengthSq]
  exact ⟨(correction_pass_spec (fun q => q) 1 _ [] ⟨0, 0, 1⟩ ⟨0, 0, 1⟩ []).1 hd0,
    ((correction_pass_spec (fun q => q) 1 _ [] ⟨0, 1, 1⟩ ⟨0, 1, 1⟩ []).2.1 hd1
      (by decide) (by decide) (by decide)).2.2 5 (by decide) (by decide)⟩

/-! ### Claim C7: the cut pass -/

/-- C7: immediately after a cut pass with cursor point `C` and radius `r`,
no remaining constraint's segment has point-to-segment distance `< r` to
`C`; every constraint whose segment lies within `r` of `C` (distance `< r`;
the code in fact removes distance `<= r`) is removed; the remaining list is
a subsequence; and for coinciding endpoints the segment distance falls back
to point-to-point distance. -/
theorem cut_clears_disc (sq : ℚ → ℚ) (m : Vec2) (r : ℚ) (c : Cloth) :
    (∀ s ∈ cutSprings sq m r c,
      ¬ (distance_point_to_segment sq m (c.particles.getD s.p1_idx dfltParticle).pos
          (c.particles.getD s.p2_idx dfltParticle).pos < r))
    ∧ (∀ s ∈ c.springs,
        distance_point_to_segment sq m (c.particles.getD s.p1_idx dfltParticle).pos
          (c.particles.getD s.p2_idx dfltParticle).pos < r →
          s ∉ cutSprings sq m r c)
    ∧ (cutSprings sq m r c).Sublist c.springs
    ∧ (∀ p a : Vec2, distance_point_to_segment sq p a a = Vec2.dist sq p a) := by
  refine ⟨fun s hs => ?_, fun s _ hlt hmem => ?_, List.filter_sublist _, fun p a => ?_⟩
  · rw [cutSprings, List.mem_filter, decide_eq_true_eq] at hs
    exact lt_asymm hs.2
  · rw [cutSprings, List.mem_filter, decide_eq_true_eq] at hmem
    exact lt_asymm hlt hmem.2
  · have hz : (a - a).lengthSq = 0 := by
      cases a
      simp [Vec2.sub_def, Vec2.lengthSq]
    simp only [distance_point_to_segment]
    rw [if_pos hz]

theorem cut_clears_disc_witness :
    (⟨0, 1, 2⟩ : Spring) ∈ cutSprings (fun q => q) ⟨10, 10⟩ 1 cutCloth
    ∧ ¬ (distance_point_to_segment (fun q => q) ⟨10, 10⟩
        (cutCloth.particles.getD (⟨0, 1, 2⟩ : Spring).p1_idx dfltParticle).pos
        (cutCloth.particles.getD (⟨0, 1, 2⟩ : Spring).p2_idx dfltParticle).pos < 1) := by
  have hm : (⟨0, 1, 2⟩ : Spring) ∈ cutSprings (fun q => q) ⟨10, 10⟩ 1 cutCloth := by
    norm_num [cutSprings, cutCloth, distance_point_to_segment, clampf, Vec2.dist,
      Vec2.dot, Vec2.lengthSq, Vec2.sub_def, Vec2.add_def, Vec2.smul, Particle.new]
  exact ⟨hm, (cut_clears_disc (fun q => q) ⟨10, 10⟩ 1 cutCloth).1 _ hm⟩

/-! ### Per-pass facts about the frame loop -/

theorem resetPass_of_false (sq : ℚ → ℚ) (inp : FrameInput) (st : SimState)
    (h : inp.reset_pressed = false) : resetPass sq inp st = st := by
  simp [resetPass, h]

theorem rebuildPass_of_not (sq : ℚ → ℚ) (inp : FrameInput) (st : SimState)
    (h : ¬ (|st.last_width - inp.cloth_width| > 1/10
        ∨ |st.last_height - inp.cloth_height| > 1/10)) :
    rebuildPass sq inp st = st := by
  simp only [rebuildPass]
  rw [if_neg h]

theorem selectPass_cloth (inp : FrameInput) (st : SimState) :
    (selectPass inp st).cloth = st.cloth := by
  simp only [selectPass]
  split
  · split
    · split
      · rfl
      · rfl
    · rfl
  · rfl

theorem selectPass_lasts (inp : FrameInput) (st : SimState) :
    (selectPass inp st).last_width = st.last_width
      ∧ (selectPass inp st).last_height = st.last_height := by
  simp only [selectPass]
  split
  · split
    · split
      · exact ⟨rfl, rfl⟩
      · exact ⟨rfl, rfl⟩
    · exact ⟨rfl, rfl⟩
  · exact ⟨rfl, rfl⟩

theorem dragPass_springs (inp : FrameInput) (st : SimState) :
    (dragPass inp st).cloth.springs = st.cloth.springs := by
  simp only [dragPass]
  split
  · split
    · split
      · rfl
      · rfl
    · rfl
  · rfl

theorem dragPass_lasts (inp : FrameInput) (st : SimState) :
    (dragPass inp st).last_width = st.last_width
      ∧ (dragPass inp st).last_height = st.last_height := by
  simp only [dragPass]
  split
  · split
    · split
      · exact ⟨rfl, rfl⟩
      · exact ⟨rfl, rfl⟩
    · exact ⟨rfl, rfl⟩
  · exact ⟨rfl, rfl⟩

theorem releasePass_cloth (inp : FrameInput) (st : SimState) :
    (releasePass inp st).cloth = st.cloth := by
  unfold releasePass
  split
  · rfl
  · rfl

theorem releasePass_lasts (inp : FrameInput) (st : SimState) :
    (releasePass inp st).last_width = st.last_width
      ∧ (releasePass inp st).last_height = st.last_height := by
  unfold releasePass
  split
  · exact ⟨rfl, rfl⟩
  · exact ⟨rfl, rfl⟩

theorem cutFramePass_springs_sublist (sq : ℚ → ℚ) (inp : FrameInput) (st : SimState) :
    (cutFramePass sq inp st).cloth.springs.Sublist st.cloth.springs := by
  unfold cutFramePass
  split
  · exact List.filter_sublist _
  · exact List.Sublist.refl _

theorem cutFramePass_lasts (sq : ℚ → ℚ) (inp : FrameInput) (st : SimState) :
    (cutFramePass sq inp st).last_width = st.last_width
      ∧ (cutFramePass sq inp st).last_height = st.last_height := by
  unfold cutFramePass
  split
  · exact ⟨rfl, rfl⟩
  · exact ⟨rfl, rfl⟩

theorem relax_springs_sublist (sq : ℚ → ℚ) (st tr : ℚ) :
    ∀ (n : Nat) (c : Cloth), (Cloth.relax sq st tr n c).springs.Sublist c.springs := by
  intro n
  induction n with
  | zero => intro c; exact List.Sublist.refl _
  | succ m ih =>
    intro c
    simp only [Cloth.relax]
    exact (ih _).trans (List.filter_sublist _)

theorem update_springs_sublist (sq : ℚ → ℚ) (c : Cloth) (dt : ℚ) (iters : Nat)
    (g : Vec2) (st tr : ℚ) :
    (Cloth.update sq c dt iters g st tr).springs.Sublist c.springs :=
  relax_springs_sublist sq st tr iters _

theorem physicsPass_springs_sublist (sq : ℚ → ℚ) (inp : FrameInput) (st : SimState) :
    (physicsPass sq inp st).cloth.springs.Sublist st.cloth.springs :=
  update_springs_sublist ..

theorem physicsPass_lasts (sq : ℚ → ℚ) (inp : FrameInput) (st : SimState) :
    (physicsPass sq inp st).last_width = st.last_width
      ∧ (physicsPass sq inp st).last_height = st.last_height :=
  ⟨rfl, rfl⟩

/-- One non-rebuilding frame only ever filters the spring list. -/
theorem mainFrame_springs_sublist (sq : ℚ → ℚ) (inp : FrameInput) (st : SimState)
    (hreset : inp.reset_pressed = false)
    (hrebuild : ¬ (|st.last_width - inp.cloth_width| > 1/10
        ∨ |st.last_height - inp.cloth_height| > 1/10)) :
    (mainFrame sq inp st).cloth.springs.Sublist st.cloth.springs := by
  unfold mainFrame
  rw [resetPass_of_false sq inp st hreset, rebuildPass_of_not sq inp st hrebuild]
  refine (physicsPass_springs_sublist ..).trans
    ((cutFramePass_springs_sublist ..).trans ?_)
  rw [releasePass_cloth, dragPass_springs, selectPass_cloth]

theorem mainFrame_lasts (sq : ℚ → ℚ) (inp : FrameInput) (st : SimState)
    (hreset : inp.reset_pressed = false)
    (hrebuild : ¬ (|st.last_width - inp.cloth_width| > 1/10
        ∨ |st.last_height - inp.cloth_height| > 1/10)) :
    (mainFrame sq inp st).last_width = st.last_width
      ∧ (mainFrame sq inp st).last_height = st.last_height := by
  unfold mainFrame
  rw [resetPass_of_false sq inp st hreset, rebuildPass_of_not sq inp st hrebuild]
  rw [(physicsPass_lasts ..).1, (physicsPass_lasts ..).2,
    (cutFramePass_lasts ..).1, (cutFramePass_lasts ..).2,
    (releasePass_lasts ..).1, (releasePass_lasts ..).2,
    (dragPass_lasts ..).1, (dragPass_lasts ..).2,
    (selectPass_lasts ..).1, (selectPass_lasts ..).2]
  exact ⟨rfl, rfl⟩

/-- Folding non-rebuilding frames (all slider values matching the live
grid) only ever shrinks the spring list, and preserves the recorded grid
size. -/
theorem frames_fold_sublist (sq : ℚ → ℚ) (inps : List FrameInput) :
    ∀ st : SimState,
      (∀ i ∈ inps, i.reset_pressed = false ∧ i.cloth_width = st.last_width
        ∧ i.cloth_height = st.last_height) →
      ((inps.foldl (fun s i => mainFrame sq i s) st).cloth.springs.Sublist
          st.cloth.springs
        ∧ (inps.foldl (fun s i => mainFrame sq i s) st).last_width = st.last_width
        ∧ (inps.foldl (fun s i => mainFrame sq i s) st).last_height = st.last_height) := by
  induction inps with
  | nil => exact fun st _ => ⟨List.Sublist.refl _, rfl, rfl⟩
  | cons a t ih =>
    intro st h
    obtain ⟨ha1, ha2, ha3⟩ := h a (List.mem_cons_self a t)
    have hrebuild : ¬ (|st.last_width - a.cloth_width| > 1/10
        ∨ |st.last_height - a.cloth_height| > 1/10) := by
      rw [ha2, ha3]
      norm_num
    have hlw := (mainFrame_lasts sq a st ha1 hrebuild).1
    have hlh := (mainFrame_lasts sq a st ha1 hrebuild).2
    have ht : ∀ i ∈ t, i.reset_pressed = false
        ∧ i.cloth_width = (mainFrame sq a st).last_width
        ∧ i.cloth_height = (mainFrame sq a st).last_height := by
      intro i hi
      obtain ⟨h1, h2, h3⟩ := h i (List.mem_cons_of_mem a hi)
      exact ⟨h1, h2.trans hlw.symm, h3.trans hlh.symm⟩
    obtain ⟨ihs, ihw, ihh⟩ := ih (mainFrame sq a st) ht
    exact ⟨ihs.trans (mainFrame_springs_sublist sq a st ha1 hrebuild),
      ihw.trans hlw, ihh.trans hlh⟩

/-! ### Claim C5: the constraint set never regrows -/

/-- C5: for a fixed cloth instance (no reset, no rebuild), each frame's
spring list is a subsequence of the previous frame's, and over any sequence
of such frames a constraint absent from the set stays absent forever (in
particular a torn or cut one never reappears, whatever the endpoints do). -/
theorem constraints_never_regrow (sq : ℚ → ℚ) (inp : FrameInput) (st : SimState)
    (inps : List FrameInput) :
    (inp.reset_pressed = false →
      ¬ (|st.last_width - inp.cloth_width| > 1/10
          ∨ |st.last_height - inp.cloth_height| > 1/10) →
      (mainFrame sq inp st).cloth.springs.Sublist st.cloth.springs)
    ∧ ((∀ i ∈ inps, i.reset_pressed = false ∧ i.cloth_width = st.last_width
          ∧ i.cloth_height = st.last_height) →
        (inps.foldl (fun s i => mainFrame sq i s) st).cloth.springs.Sublist
            st.cloth.springs
        ∧ ∀ s : Spring, s ∉ st.cloth.springs →
            s ∉ (inps.foldl (fun s i => mainFrame sq i s) st).cloth.springs) := by
  refine ⟨fun hreset hrebuild => mainFrame_springs_sublist sq inp st hreset hrebuild,
    fun h => ?_⟩
  have hs := (frames_fold_sublist sq inps st h).1
  exact ⟨hs, fun s hns hmem => hns (hs.subset hmem)⟩

theorem constraints_never_regrow_witness :
    (mainFrame (fun q => q) c5Inp c5St).cloth.springs.Sublist c5St.cloth.springs
    ∧ ([c5Inp].foldl (fun s i => mainFrame (fun q => q) i s)
        c5St).cloth.springs.Sublist c5St.cloth.springs := by
  refine ⟨(constraints_never_regrow (fun q => q) c5Inp c5St [c5Inp]).1 (by decide)
      (by norm_num [c5Inp, c5St]),
    ((constraints_never_regrow (fun q => q) c5Inp c5St [c5Inp]).2 ?_).1⟩
  intro i hi
  simp only [List.mem_singleton] at hi
  subst hi
  exact ⟨by decide, by norm_num [c5Inp, c5St], by norm_num [c5Inp, c5St]⟩

/-! ### Claim C9: the per-frame pass order -/

theorem toUsize_zero : toUsize 0 = 0 := rfl

/-- C9 counterexample: the frame with an active drag produces a different
state than the spec's claimed order (physics → cut → interaction) would: in
the source the drag runs BEFORE the physics update, so the dragged particle
is integrated onward from the cursor (ending at (10,10)); in the claimed
order it would end exactly at the cursor (5,5). -/
theorem frame_order_not_spec_order :
    mainFrame (fun q => q) c9Inp c9St ≠ specOrderFrame (fun q => q) c9Inp c9St := by
  intro h
  have h1 : ((mainFrame (fun q => q) c9Inp c9St).cloth.particles.getD 0
      dfltParticle).pos = ⟨10, 10⟩ := by
    norm_num [mainFrame, resetPass, rebuildPass, selectPass, dragPass, releasePass,
      cutFramePass, physicsPass, Cloth.update, Cloth.relax, toUsize_zero, c9Inp, c9St,
      Particle.new, Particle.apply_force, Particle.update, Vec2.add_def, Vec2.sub_def,
      Vec2.smul, Vec2.div, Vec2.zero, min_def, dfltParticle]
  have h2 : ((specOrderFrame (fun q => q) c9Inp c9St).cloth.particles.getD 0
      dfltParticle).pos = ⟨5, 5⟩ := by
    norm_num [specOrderFrame, resetPass, rebuildPass, selectPass, dragPass, releasePass,
      cutFramePass, physicsPass, Cloth.update, Cloth.relax, toUsize_zero, c9Inp, c9St,
      Particle.new, Particle.apply_force, Particle.update, Vec2.add_def, Vec2.sub_def,
      Vec2.smul, Vec2.div, Vec2.zero, min_def, dfltParticle]
  rw [h, h2] at h1
  norm_num [Vec2.mk.injEq] at h1

/-- C9 amended: within each iteration of `main`'s loop the mutators run in
source order: reset/rebuild handling, then interaction (selection, drag,
release), then the cut pass, then the physics update (force application →
integration → tear/relax).  With selection, release, reset and rebuild
inactive, a frame is exactly drag → cut → physics — interaction and cut
come BEFORE the physics passes, not after as the spec claims. -/
theorem frame_order_actual (sq : ℚ → ℚ) (inp : FrameInput) (st : SimState)
    (hreset : inp.reset_pressed = false)
    (hrebuild : ¬ (|st.last_width - inp.cloth_width| > 1/10
        ∨ |st.last_height - inp.cloth_height| > 1/10))
    (hsel : inp.left_pressed = false)
    (hrel : inp.left_released = false) :
    mainFrame sq inp st = physicsPass sq inp (cutFramePass sq inp (dragPass inp st)) := by
  unfold mainFrame
  rw [resetPass_of_false sq inp st hreset, rebuildPass_of_not sq inp st hrebuild]
  have hsp : selectPass inp st = st := by simp [selectPass, hsel]
  rw [hsp]
  have hrp : releasePass inp (dragPass inp st) = dragPass inp st := by
    simp [releasePass, hrel]
  rw [hrp]

theorem frame_order_actual_witness :
    mainFrame (fun q => q) c9Inp c9St
      = physicsPass (fun q => q) c9Inp
          (cutFramePass (fun q => q) c9Inp (dragPass c9Inp c9St)) :=
  frame_order_actual (fun q => q) c9Inp c9St (by decide)
    (by norm_num [c9Inp, c9St]) (by decide) (by decide)

/-! ### The generated topology, via origin labels -/

theorem cellSprings_eq_map (w h : Nat) (sp : ℚ) (sq : ℚ → ℚ) (x y : Nat) :
    cellSprings w h sp sq x y
      = (cellKinds w h x y).map (encodeK w sp (sq (sp ^ 2 + sp ^ 2))) := by
  simp only [cellSprings, cellKinds]
  split_ifs <;> simp [encodeK]

theorem clothSprings_eq_map (w h : Nat) (sp : ℚ) (sq : ℚ → ℚ) :
    clothSprings w h sp sq
      = (clothOrigins w h).map (encodeK w sp (sq (sp ^ 2 + sp ^ 2))) := by
  simp only [clothSprings, clothOrigins, List.map_flatMap]
  exact List.flatMap_congr fun y _ => List.flatMap_congr fun x _ => cellSprings_eq_map ..

theorem mem_cellKinds {w h x y : Nat} {o : Nat × Nat × Nat} (ho : o ∈ cellKinds w h x y) :
    (o = (x, y, 0) ∧ x < w - 1) ∨ (o = (x, y, 1) ∧ x < w - 2)
    ∨ (o = (x, y, 2) ∧ y < h - 1) ∨ (o = (x, y, 3) ∧ y < h - 2)
    ∨ ((o = (x, y, 4) ∨ o = (x, y, 5)) ∧ (x < w - 1 ∧ y < h - 1)) := by
  simp only [cellKinds] at ho
  split_ifs at ho <;> simp at ho <;> tauto

theorem mem_clothOrigins {w h : Nat} {o : Nat × Nat × Nat} (ho : o ∈ clothOrigins w h) :
    ∃ x y, x < w ∧ y < h ∧ o ∈ cellKinds w h x y := by
  simp only [clothOrigins, List.mem_flatMap, List.mem_range] at ho
  obtain ⟨y, hy, x, hx, hm⟩ := ho
  exact ⟨x, y, hx, hy, hm⟩

theorem grid_lt {w h x y : Nat} (hx : x < w) (hy : y < h) : y * w + x < w * h := by
  have h1 : y * w + x < (y + 1) * w := by
    rw [Nat.succ_mul]
    omega
  have h2 : (y + 1) * w ≤ h * w := Nat.mul_le_mul_right w hy
  rw [Nat.mul_comm w h]
  exact lt_of_lt_of_le h1 h2

theorem clothParticles_length (w h : Nat) (sp sx sy : ℚ) :
    (clothParticles w h sp sx sy).length = w * h := by
  simp [clothParticles, List.length_flatMap, Function.comp_def, Nat.mul_comm]

/-- Every generated spring has two distinct in-range endpoint indices. -/
theorem clothSprings_bounds (w h : Nat) (sp : ℚ) (sq : ℚ → ℚ) (s : Spring)
    (hs : s ∈ clothSprings w h sp sq) :
    s.p1_idx < w * h ∧ s.p2_idx < w * h ∧ s.p1_idx ≠ s.p2_idx := by
  rw [clothSprings_eq_map] at hs
  obtain ⟨o, ho, rfl⟩ := List.mem_map.mp hs
  obtain ⟨x, y, hx, hy, hk⟩ := mem_clothOrigins ho
  rcases mem_cellKinds hk with ⟨rfl, hg⟩ | ⟨rfl, hg⟩ | ⟨rfl, hg⟩ | ⟨rfl, hg⟩
    | ⟨(rfl | rfl), hg1, hg2⟩
  · refine ⟨grid_lt hx hy, ?_, ?_⟩
    · show y * w + x + 1 < w * h
      have b := grid_lt (show x + 1 < w by omega) hy
      omega
    · show y * w + x ≠ y * w + x + 1
      omega
  · refine ⟨grid_lt hx hy, ?_, ?_⟩
    · show y * w + x + 2 < w * h
      have b := grid_lt (show x + 2 < w by omega) hy
      omega
    · show y * w + x ≠ y * w + x + 2
      omega
  · refine ⟨grid_lt hx hy, ?_, ?_⟩
    · show y * w + x + w < w * h
      have b := grid_lt hx (show y + 1 < h by omega)
      have e : (y + 1) * w = y * w + w := by ring
      omega
    · show y * w + x ≠ y * w + x + w
      omega
  · refine ⟨grid_lt hx hy, ?_, ?_⟩
    · show y * w + x + 2 * w < w * h
      have b := grid_lt hx (show y + 2 < h by omega)
      have e : (y + 2) * w = y * w + 2 * w := by ring
      omega
    · show y * w + x ≠ y * w + x + 2 * w
      omega
  · refine ⟨grid_lt hx hy, ?_, ?_⟩
    · show y * w + x + w + 1 < w * h
      have b := grid_lt (show x + 1 < w by omega) (show y + 1 < h by omega)
      have e : (y + 1) * w = y * w + w := by ring
      omega
    · show y * w + x ≠ y * w + x + w + 1
      omega
  · refine ⟨?_, ?_, ?_⟩
    · show y * w + (x + 1) < w * h
      exact grid_lt (show x + 1 < w by omega) hy
    · show (y + 1) * w + x < w * h
      exact grid_lt hx (show y + 1 < h by omega)
    · show y * w + (x + 1) ≠ (y + 1) * w + x
      have e : (y + 1) * w = y * w + w := by ring
      omega

/-- The `usize` guards of `Cloth::new` agree with exact `Int` arithmetic:
no evaluated subtraction ever underflows, for any width and height. -/
theorem clothSpringsZ_eq (w h : Nat) (sp : ℚ) (sq : ℚ → ℚ) :
    clothSpringsZ w h sp sq = clothSprings w h sp sq := by
  simp only [clothSpringsZ, clothSprings]
  refine List.flatMap_congr fun y _ => List.flatMap_congr fun x _ => ?_
  simp only [cellSpringsZ, cellSprings]
  have e1 : ((x : Int) < (w : Int) - 1) ↔ x < w - 1 := by omega
  have e2 : ((x : Int) < (w : Int) - 2) ↔ x < w - 2 := by omega
  have e3 : ((y : Int) < (h : Int) - 1) ↔ y < h - 1 := by omega
  have e4 : ((y : Int) < (h : Int) - 2) ↔ y < h - 2 := by omega
  simp only [e1, e2, e3, e4]

/-! ### Claim C10: safety of `Cloth::new` for all sizes -/

/-- C10: for every width and height (including the degenerate values 0 and
1) and any spacing and origin, `Cloth::new` terminates and returns exactly
`width*height` particles; every constraint it creates references two
distinct indices both strictly below `width*height` (so the correction
pass's dual mutation never addresses the same particle twice); and every
`width - 1` / `width - 2` style guard evaluates the same in `usize` and in
exact `Int` arithmetic, i.e. no integer underflow is ever exercised. -/
theorem cloth_new_safe (sq : ℚ → ℚ) (w h : Nat) (sp sx sy : ℚ) :
    ((Cloth.new sq w h sp sx sy).particles.length = w * h)
    ∧ (∀ s ∈ (Cloth.new sq w h sp sx sy).springs,
        s.p1_idx < w * h ∧ s.p2_idx < w * h ∧ s.p1_idx ≠ s.p2_idx)
    ∧ clothSpringsZ w h sp sq = clothSprings w h sp sq :=
  ⟨clothParticles_length w h sp sx sy,
   fun s hs => clothSprings_bounds w h sp sq s hs,
   clothSpringsZ_eq w h sp sq⟩

theorem cloth_new_safe_witness :
    ((⟨0, 1, (1 : ℚ)⟩ : Spring) ∈ (Cloth.new (fun _ => 5) 2 2 1 300 50).springs)
    ∧ ((⟨0, 1, (1 : ℚ)⟩ : Spring).p1_idx < 2 * 2
        ∧ (⟨0, 1, (1 : ℚ)⟩ : Spring).p2_idx < 2 * 2
        ∧ (⟨0, 1, (1 : ℚ)⟩ : Spring).p1_idx ≠ (⟨0, 1, (1 : ℚ)⟩ : Spring).p2_idx) := by
  have hm : (⟨0, 1, (1 : ℚ)⟩ : Spring) ∈ (Cloth.new (fun _ => 5) 2 2 1 300 50).springs := by
    simp only [Cloth.new, clothSprings]
    refine List.mem_flatMap.mpr ⟨0, by simp, List.mem_flatMap.mpr ⟨0, by simp, ?_⟩⟩
    simp [cellSprings]
  exact ⟨hm, (cloth_new_safe (fun _ => 5) 2 2 1 300 50).2.1 _ hm⟩

/-! ### Counting the generated constraints (claim C2) -/

theorem countP_flatMap {α β : Type} (p : α → Bool) (l : List β) (f : β → List α) :
    (l.flatMap f).countP p = (l.map fun b => (f b).countP p).sum := by
  induction l with
  | nil => rfl
  | cons a t ih => simp [List.flatMap_cons, List.countP_append, ih]

theorem sum_map_range_const (n c : Nat) :
    ((List.range n).map fun _ => c).sum = n * c := by
  induction n with
  | zero => simp
  | succ k ih =>
    rw [List.range_succ, List.map_append, List.sum_append, ih]
    simp [Nat.succ_mul]

theorem sum_map_range_ite (n m c : Nat) :
    ((List.range n).map fun x => if x < m then c else 0).sum = min m n * c := by
  induction n with
  | zero => simp
  | succ k ih =>
    rw [List.range_succ, List.map_append, List.sum_append, ih]
    by_cases hk : k < m
    · rw [Nat.min_eq_right (by omega), Nat.min_eq_right (by omega)]
      simp [hk, Nat.succ_mul]
    · rw [Nat.min_eq_left (by omega), Nat.min_eq_left (by omega)]
      simp [hk]

theorem grid_mod {w x : Nat} (y : Nat) (hx : x < w) : (y * w + x) % w = x := by
  rw [Nat.add_comm, Nat.add_mul_mod_self_right]
  exact Nat.mod_eq_of_lt hx

theorem grid_div {w x : Nat} (y : Nat) (hx : x < w) : (y * w + x) / w = y := by
  rw [Nat.add_comm, Nat.add_mul_div_right _ _ (show 0 < w by omega),
    Nat.div_eq_of_lt hx, Nat.zero_add]

theorem cellKinds_count0 (w h x y : Nat) :
    (cellKinds w h x y).countP (fun o => decide (o.2.2 = 0))
      = if x < w - 1 then 1 else 0 := by
  simp only [cellKinds]
  split_ifs <;> simp [List.countP_append, List.countP_cons]

theorem cellKinds_count1 (w h x y : Nat) :
    (cellKinds w h x y).countP (fun o => decide (o.2.2 = 1))
      = if x < w - 2 then 1 else 0 := by
  simp only [cellKinds]
  split_ifs <;> simp [List.countP_append, List.countP_cons] <;> omega

theorem cellKinds_count2 (w h x y : Nat) :
    (cellKinds w h x y).countP (fun o => decide (o.2.2 = 2))
      = if y < h - 1 then 1 else 0 := by
  simp only [cellKinds]
  split_ifs <;> simp [List.countP_append, List.countP_cons]

theorem cellKinds_count3 (w h x y : Nat) :
    (cellKinds w h x y).countP (fun o => decide (o.2.2 = 3))
      = if y < h - 2 then 1 else 0 := by
  simp only [cellKinds]
  split_ifs <;> simp [List.countP_append, List.countP_cons] <;> omega

theorem cellKinds_count45 (w h x y : Nat) :
    (cellKinds w h x y).countP (fun o => decide (4 ≤ o.2.2))
      = if x < w - 1 then (if y < h - 1 then 2 else 0) else 0 := by
  simp only [cellKinds]
  split_ifs <;> simp [List.countP_append, List.countP_cons] <;> omega

theorem clothOrigins_count0 (w h : Nat) :
    (clothOrigins w h).countP (fun o => decide (o.2.2 = 0)) = (w - 1) * h := by
  have hmin : min (w - 1) w = w - 1 := by omega
  simp only [clothOrigins, countP_flatMap, cellKinds_count0, sum_map_range_ite, hmin,
    Nat.mul_one, sum_map_range_const]
  exact Nat.mul_comm h (w - 1)

theorem clothOrigins_count1 (w h : Nat) :
    (clothOrigins w h).countP (fun o => decide (o.2.2 = 1)) = (w - 2) * h := by
  have hmin : min (w - 2) w = w - 2 := by omega
  simp only [clothOrigins, countP_flatMap, cellKinds_count1, sum_map_range_ite, hmin,
    Nat.mul_one, sum_map_range_const]
  exact Nat.mul_comm h (w - 2)

theorem clothOrigins_count2 (w h : Nat) :
    (clothOrigins w h).countP (fun o => decide (o.2.2 = 2)) = w * (h - 1) := by
  have hmin : min (h - 1) h = h - 1 := by omega
  simp only [clothOrigins, countP_flatMap, cellKinds_count2, sum_map_range_const,
    mul_ite, mul_one, mul_zero, sum_map_range_ite, hmin]
  exact Nat.mul_comm (h - 1) w

theorem clothOrigins_count3 (w h : Nat) :
    (clothOrigins w h).countP (fun o => decide (o.2.2 = 3)) = w * (h - 2) := by
  have hmin : min (h - 2) h = h - 2 := by omega
  simp only [clothOrigins, countP_flatMap, cellKinds_count3, sum_map_range_const,
    mul_ite, mul_one, mul_zero, sum_map_range_ite, hmin]
  exact Nat.mul_comm (h - 2) w

theorem clothOrigins_count45 (w h : Nat) :
    (clothOrigins w h).countP (fun o => decide (4 ≤ o.2.2))
      = 2 * ((w - 1) * (h - 1)) := by
  have hminw : min (w - 1) w = w - 1 := by omega
  have hminh : min (h - 1) h = h - 1 := by omega
  simp only [clothOrigins, countP_flatMap, cellKinds_count45, sum_map_range_ite, hminw,
    mul_ite, mul_zero, sum_map_range_ite, hminh]
  ring

/-- On generated origins, each of the five claim predicates (index offset
plus rest length) recognises exactly one kind of constraint, provided the
diagonal rest length differs from `spacing` and `2*spacing` and
`spacing ≠ 0` (true in real arithmetic whenever `spacing > 0`). -/
theorem encodeK_preds (w h : Nat) (sp diag : ℚ) (hw : 2 ≤ w) (hsp : sp ≠ 0)
    (hd1 : diag ≠ sp) (hd2 : diag ≠ sp * 2) {o : Nat × Nat × Nat}
    (ho : o ∈ clothOrigins w h) :
    (((encodeK w sp diag o).p2_idx = (encodeK w sp diag o).p1_idx + 1
        ∧ (encodeK w sp diag o).rest_length = sp) ↔ o.2.2 = 0)
    ∧ (((encodeK w sp diag o).p2_idx = (encodeK w sp diag o).p1_idx + 2
        ∧ (encodeK w sp diag o).rest_length = sp * 2) ↔ o.2.2 = 1)
    ∧ (((encodeK w sp diag o).p2_idx = (encodeK w sp diag o).p1_idx + w
        ∧ (encodeK w sp diag o).rest_length = sp) ↔ o.2.2 = 2)
    ∧ (((encodeK w sp diag o).p2_idx = (encodeK w sp diag o).p1_idx + 2 * w
        ∧ (encodeK w sp diag o).rest_length = sp * 2) ↔ o.2.2 = 3)
    ∧ (((encodeK w sp diag o).rest_length = diag) ↔ 4 ≤ o.2.2) := by
  have ksp : sp * 2 ≠ sp := fun hcon => hsp (by linarith)
  have ksp' : sp ≠ sp * 2 := fun hcon => hsp (by linarith)
  have kd1 : sp ≠ diag := Ne.symm hd1
  have kd2 : sp * 2 ≠ diag := Ne.symm hd2
  obtain ⟨x, y, hx, hy, hk⟩ := mem_clothOrigins ho
  rcases mem_cellKinds hk with ⟨rfl, hg⟩ | ⟨rfl, hg⟩ | ⟨rfl, hg⟩ | ⟨rfl, hg⟩
    | ⟨(rfl | rfl), hg1, hg2⟩ <;>
  refine ⟨?_, ?_, ?_, ?_, ?_⟩ <;>
  first
    | exact iff_of_true ⟨rfl, rfl⟩ rfl
    | exact iff_of_true rfl (by simp)
    | exact iff_of_false (fun hcon => absurd hcon.2 ksp) (by simp)
    | exact iff_of_false (fun hcon => absurd hcon.2 ksp') (by simp)
    | exact iff_of_false (fun hcon => absurd hcon.2 hd1) (by simp)
    | exact iff_of_false (fun hcon => absurd hcon.2 hd2) (by simp)
    | exact iff_of_false (fun hcon => absurd hcon kd1) (by simp)
    | exact iff_of_false (fun hcon => absurd hcon kd2) (by simp)
    | exact iff_of_false (fun hcon => by
        have hd := hcon.1
        simp only [encodeK] at hd
        omega) (by simp)

/-- `decKey` recovers the origin label of every generated spring from its
endpoint pair alone (for `w ≥ 2`). -/
theorem decKey_encodeK (w h : Nat) (sp diag : ℚ) (hw : 2 ≤ w) {o : Nat × Nat × Nat}
    (ho : o ∈ clothOrigins w h) :
    decKey w ((encodeK w sp diag o).p1_idx, (encodeK w sp diag o).p2_idx) = o := by
  obtain ⟨x, y, hx, hy, hk⟩ := mem_clothOrigins ho
  rcases mem_cellKinds hk with ⟨rfl, hg⟩ | ⟨rfl, hg⟩ | ⟨rfl, hg⟩ | ⟨rfl, hg⟩
    | ⟨(rfl | rfl), hg1, hg2⟩
  · simp only [encodeK, decKey]
    rw [show (y * w + x + 1) - (y * w + x) = 1 from by omega]
    rw [grid_mod y hx, grid_div y hx]
    rw [if_pos rfl, if_neg (by rintro ⟨hw2, hxx⟩; omega)]
  · simp only [encodeK, decKey]
    rw [show (y * w + x + 2) - (y * w + x) = 2 from by omega]
    rw [grid_mod y hx, grid_div y hx]
    rw [if_neg (by omega), if_pos rfl, if_neg (by omega),
      if_neg (by rintro ⟨hw3, hxx⟩; omega)]
  · simp only [encodeK, decKey]
    rw [show (y * w + x + w) - (y * w + x) = w from by omega]
    rw [grid_mod y hx, grid_div y hx]
    by_cases hw2 : w = 2
    · rw [if_neg (by omega), if_pos hw2, if_pos hw2]
    · rw [if_neg (by omega), if_neg hw2, if_pos rfl]
  · simp only [encodeK, decKey]
    rw [show (y * w + x + 2 * w) - (y * w + x) = 2 * w from by omega]
    rw [grid_mod y hx, grid_div y hx]
    rw [if_neg (by omega), if_neg (by omega), if_neg (by omega), if_pos rfl]
  · simp only [encodeK, decKey]
    rw [show (y * w + x + w + 1) - (y * w + x) = w + 1 from by omega]
    rw [grid_mod y hx, grid_div y hx]
    rw [if_neg (by omega), if_neg (by omega), if_neg (by omega), if_neg (by omega),
      if_pos rfl]
  · simp only [encodeK, decKey]
    have hx1 : x + 1 < w := by omega
    rw [show ((y + 1) * w + x) - (y * w + (x + 1)) = w - 1 from by
      have e : (y + 1) * w = y * w + w := by ring
      omega]
    rw [grid_mod y hx1, grid_div y hx1]
    by_cases hw2 : w = 2
    · rw [if_pos (by omega), if_pos ⟨hw2, by omega⟩, show x + 1 - 1 = x from by omega]
    · by_cases hw3 : w = 3
      · rw [if_neg (by omega), if_pos (by omega), if_neg hw2,
          if_pos ⟨hw3, by omega⟩, show x + 1 - 1 = x from by omega]
      · rw [if_neg (by omega), if_neg (by omega), if_neg (by omega), if_neg (by omega),
          if_neg (by omega), show x + 1 - 1 = x from by omega]

theorem mem_cellKinds_fst {w h x y : Nat} {o : Nat × Nat × Nat}
    (ho : o ∈ cellKinds w h x y) : o.1 = x ∧ o.2.1 = y := by
  rcases mem_cellKinds ho with ⟨rfl, -⟩ | ⟨rfl, -⟩ | ⟨rfl, -⟩ | ⟨rfl, -⟩
    | ⟨(rfl | rfl), -, -⟩ <;> exact ⟨rfl, rfl⟩

theorem cellKinds_nodup (w h x y : Nat) : (cellKinds w h x y).Nodup := by
  simp only [cellKinds]
  split_ifs <;> simp

theorem clothOrigins_nodup (w h : Nat) : (clothOrigins w h).Nodup := by
  simp only [clothOrigins]
  rw [List.nodup_flatMap]
  refine ⟨fun y _ => ?_, ?_⟩
  · rw [List.nodup_flatMap]
    refine ⟨fun x _ => cellKinds_nodup w h x y, ?_⟩
    refine (List.pairwise_lt_range w).imp ?_
    intro x1 x2 hlt o h1 h2
    have e1 := (mem_cellKinds_fst h1).1
    have e2 := (mem_cellKinds_fst h2).1
    omega
  · refine (List.pairwise_lt_range h).imp ?_
    intro y1 y2 hlt o h1 h2
    simp only [List.mem_flatMap, List.mem_range] at h1 h2
    obtain ⟨x1, -, hm1⟩ := h1
    obtain ⟨x2, -, hm2⟩ := h2
    have e1 := (mem_cellKinds_fst hm1).2
    have e2 := (mem_cellKinds_fst hm2).2
    omega

/-- No particle pair carries more than one generated constraint. -/
theorem clothSprings_pairs_nodup (w h : Nat) (sp : ℚ) (sq : ℚ → ℚ) (hw : 2 ≤ w) :
    ((clothSprings w h sp sq).map fun s => (s.p1_idx, s.p2_idx)).Nodup := by
  rw [clothSprings_eq_map, List.map_map]
  refine List.Nodup.map_on ?_ (clothOrigins_nodup w h)
  intro o1 h1 o2 h2 he
  have d1 := decKey_encodeK w h sp (sq (sp ^ 2 + sp ^ 2)) hw h1
  have d2 := decKey_encodeK w h sp (sq (sp ^ 2 + sp ^ 2)) hw h2
  simp only [Function.comp_apply] at he
  rw [← d1, he]
  exact d2

theorem clothSprings_count0 (w h : Nat) (sp : ℚ) (sq : ℚ → ℚ) (hw : 2 ≤ w)
    (hsp : sp ≠ 0) (hd1 : sq (sp ^ 2 + sp ^ 2) ≠ sp)
    (hd2 : sq (sp ^ 2 + sp ^ 2) ≠ sp * 2) :
    (clothSprings w h sp sq).countP
      (fun s => decide (s.p2_idx = s.p1_idx + 1 ∧ s.rest_length = sp)) = (w - 1) * h := by
  rw [clothSprings_eq_map, List.countP_map]
  have step : (clothOrigins w h).countP
      ((fun s => decide (s.p2_idx = s.p1_idx + 1 ∧ s.rest_length = sp))
        ∘ encodeK w sp (sq (sp ^ 2 + sp ^ 2)))
      = (clothOrigins w h).countP (fun o => decide (o.2.2 = 0)) :=
    List.countP_congr fun o ho => by
      simp only [Function.comp_apply, decide_eq_true_eq]
      exact (encodeK_preds w h sp _ hw hsp hd1 hd2 ho).1
  rw [step]
  exact clothOrigins_count0 w h

theorem clothSprings_count1 (w h : Nat) (sp : ℚ) (sq : ℚ → ℚ) (hw : 2 ≤ w)
    (hsp : sp ≠ 0) (hd1 : sq (sp ^ 2 + sp ^ 2) ≠ sp)
    (hd2 : sq (sp ^ 2 + sp ^ 2) ≠ sp * 2) :
    (clothSprings w h sp sq).countP
      (fun s => decide (s.p2_idx = s.p1_idx + 2 ∧ s.rest_length = sp * 2))
      = (w - 2) * h := by
  rw [clothSprings_eq_map, List.countP_map]
  have step : (clothOrigins w h).countP
      ((fun s => decide (s.p2_idx = s.p1_idx + 2 ∧ s.rest_length = sp * 2))
        ∘ encodeK w sp (sq (sp ^ 2 + sp ^ 2)))
      = (clothOrigins w h).countP (fun o => decide (o.2.2 = 1)) :=
    List.countP_congr fun o ho => by
      simp only [Function.comp_apply, decide_eq_true_eq]
      exact (encodeK_preds w h sp _ hw hsp hd1 hd2 ho).2.1
  rw [step]
  exact clothOrigins_count1 w h

theorem clothSprings_count2 (w h : Nat) (sp : ℚ) (sq : ℚ → ℚ) (hw : 2 ≤ w)
    (hsp : sp ≠ 0) (hd1 : sq (sp ^ 2 + sp ^ 2) ≠ sp)
    (hd2 : sq (sp ^ 2 + sp ^ 2) ≠ sp * 2) :
    (clothSprings w h sp sq).countP
      (fun s => decide (s.p2_idx = s.p1_idx + w ∧ s.rest_length = sp)) = w * (h - 1) := by
  rw [clothSprings_eq_map, List.countP_map]
  have step : (clothOrigins w h).countP
      ((fun s => decide (s.p2_idx = s.p1_idx + w ∧ s.rest_length = sp))
        ∘ encodeK w sp (sq (sp ^ 2 + sp ^ 2)))
      = (clothOrigins w h).countP (fun o => decide (o.2.2 = 2)) :=
    List.countP_congr fun o ho => by
      simp only [Function.comp_apply, decide_eq_true_eq]
      exact (encodeK_preds w h sp _ hw hsp hd1 hd2 ho).2.2.1
  rw [step]
  exact clothOrigins_count2 w h

theorem clothSprings_count3 (w h : Nat) (sp : ℚ) (sq : ℚ → ℚ) (hw : 2 ≤ w)
    (hsp : sp ≠ 0) (hd1 : sq (sp ^ 2 + sp ^ 2) ≠ sp)
    (hd2 : sq (sp ^ 2 + sp ^ 2) ≠ sp * 2) :
    (clothSprings w h sp sq).countP
      (fun s => decide (s.p2_idx = s.p1_idx + 2 * w ∧ s.rest_length = sp * 2))
      = w * (h - 2) := by
  rw [clothSprings_eq_map, List.countP_map]
  have step : (clothOrigins w h).countP
      ((fun s => decide (s.p2_idx = s.p1_idx + 2 * w ∧ s.rest_length = sp * 2))
        ∘ encodeK w sp (sq (sp ^ 2 + sp ^ 2)))
      = (clothOrigins w h).countP (fun o => decide (o.2.2 = 3)) :=
    List.countP_congr fun o ho => by
      simp only [Function.comp_apply, decide_eq_true_eq]
      exact (encodeK_preds w h sp _ hw hsp hd1 hd2 ho).2.2.2.1
  rw [step]
  exact clothOrigins_count3 w h

theorem clothSprings_count45 (w h : Nat) (sp : ℚ) (sq : ℚ → ℚ) (hw : 2 ≤ w)
    (hsp : sp ≠ 0) (hd1 : sq (sp ^ 2 + sp ^ 2) ≠ sp)
    (hd2 : sq (sp ^ 2 + sp ^ 2) ≠ sp * 2) :
    (clothSprings w h sp sq).countP
      (fun s => decide (s.rest_length = sq (sp ^ 2 + sp ^ 2)))
      = 2 * ((w - 1) * (h - 1)) := by
  rw [clothSprings_eq_map, List.countP_map]
  have step : (clothOrigins w h).countP
      ((fun s => decide (s.rest_length = sq (sp ^ 2 + sp ^ 2)))
        ∘ encodeK w sp (sq (sp ^ 2 + sp ^ 2)))
      = (clothOrigins w h).countP (fun o => decide (4 ≤ o.2.2)) :=
    List.countP_congr fun o ho => by
      simp only [Function.comp_apply, decide_eq_true_eq]
      exact (encodeK_preds w h sp _ hw hsp hd1 hd2 ho).2.2.2.2
  rw [step]
  exact clothOrigins_count45 w h

/-! ### Claim C2: the generated topology -/

/-- C2: for `width ≥ 2` and `height ≥ 2`, the constraint list built by
`Cloth::new` contains exactly `(width-1)*height` horizontal structural
constraints (index offset 1, rest length `spacing`), `(width-2)*height`
horizontal bending constraints (offset 2, rest length `2*spacing`),
`width*(height-1)` vertical structural constraints (offset `width`, rest
length `spacing`), `width*(height-2)` vertical bending constraints (offset
`2*width`, rest length `2*spacing`), and `2*(width-1)*(height-1)` shear
constraints of rest length `sqrt(spacing² + spacing²)` — which equals
`spacing*sqrt 2` in exact arithmetic — and no particle pair receives more
than one constraint (the endpoint-pair list has no duplicates).  The three
hypotheses on the computed diagonal length hold in real arithmetic whenever
`spacing > 0`, since `s·√2` differs from both `s` and `2s`. -/
theorem topology_counts (w h : Nat) (sp : ℚ) (sq : ℚ → ℚ) (hw : 2 ≤ w) (hh : 2 ≤ h)
    (hsp : sp ≠ 0) (hd1 : sq (sp ^ 2 + sp ^ 2) ≠ sp)
    (hd2 : sq (sp ^ 2 + sp ^ 2) ≠ sp * 2) :
    (clothSprings w h sp sq).countP
        (fun s => decide (s.p2_idx = s.p1_idx + 1 ∧ s.rest_length = sp)) = (w - 1) * h
    ∧ (clothSprings w h sp sq).countP
        (fun s => decide (s.p2_idx = s.p1_idx + 2 ∧ s.rest_length = sp * 2))
        = (w - 2) * h
    ∧ (clothSprings w h sp sq).countP
        (fun s => decide (s.p2_idx = s.p1_idx + w ∧ s.rest_length = sp)) = w * (h - 1)
    ∧ (clothSprings w h sp sq).countP
        (fun s => decide (s.p2_idx = s.p1_idx + 2 * w ∧ s.rest_length = sp * 2))
        = w * (h - 2)
    ∧ (clothSprings w h sp sq).countP
        (fun s => decide (s.rest_length = sq (sp ^ 2 + sp ^ 2)))
        = 2 * ((w - 1) * (h - 1))
    ∧ ((clothSprings w h sp sq).map fun s => (s.p1_idx, s.p2_idx)).Nodup :=
  ⟨clothSprings_count0 w h sp sq hw hsp hd1 hd2,
   clothSprings_count1 w h sp sq hw hsp hd1 hd2,
   clothSprings_count2 w h sp sq hw hsp hd1 hd2,
   clothSprings_count3 w h sp sq hw hsp hd1 hd2,
   clothSprings_count45 w h sp sq hw hsp hd1 hd2,
   clothSprings_pairs_nodup w h sp sq hw⟩

theorem topology_counts_witness :
    ((2 ≤ 4 ∧ 2 ≤ 3) ∧ (1 : ℚ) ≠ 0
      ∧ (fun _ : ℚ => (3 : ℚ)/2) ((1 : ℚ) ^ 2 + 1 ^ 2) ≠ 1
      ∧ (fun _ : ℚ => (3 : ℚ)/2) ((1 : ℚ) ^ 2 + 1 ^ 2) ≠ 1 * 2)
    ∧ (clothSprings 4 3 1 (fun _ => 3/2)).countP
        (fun s => decide (s.p2_idx = s.p1_idx + 1 ∧ s.rest_length = 1)) = (4 - 1) * 3
    ∧ ((clothSprings 4 3 1 (fun _ => 3/2)).map fun s => (s.p1_idx, s.p2_idx)).Nodup := by
  have hd1 : (fun _ : ℚ => (3 : ℚ)/2) ((1 : ℚ) ^ 2 + 1 ^ 2) ≠ 1 := by norm_num
  have hd2 : (fun _ : ℚ => (3 : ℚ)/2) ((1 : ℚ) ^ 2 + 1 ^ 2) ≠ 1 * 2 := by norm_num
  have ht := topology_counts 4 3 1 (fun _ => 3/2) (by omega) (by omega) (by norm_num) hd1 hd2
  exact ⟨⟨⟨by omega, by omega⟩, by norm_num, hd1, hd2⟩, ht.1, ht.2.2.2.2.2⟩

end ClothSim
